import Mathlib

/-!
Shallow embedding of the tile-caching core of the mapproxy repository
(`mapproxy/core/cache.py` and `mapproxy/client/http.py`) together with
theorems checking the natural-language specification against it.

Machine integers of the source are modelled as `Nat` (Python ints are
unbounded, tile coordinates and levels are nonnegative).  Fallible code is
modelled with `Option`/`Except`; Python exceptions become explicit error
values.  External collaborators (the grid math, the image library, hashing,
the filesystem) are modelled as parameters or as explicit state, never as
stubs of code that lives in the repository itself.
-/

namespace MapProxy

/-- Tile coordinate `(x, y, z)` as used throughout `cache.py`
(`x, y, z = tile.coord`). -/
abbrev Coord := Nat × Nat × Nat

/-! ## `Cache._tiled_image` / `CacheMapLayer._tiled_image` (claim C1)

Both methods run the identical guard sequence: `grid.get_affected_tiles`
(whose `IndexError` becomes `TileCacheError('Invalid BBOX')` and whose
`NoTiles` becomes `BlankImage`), then
`if num_tiles >= base_config().cache.max_tile_limit: raise TooManyTilesError()`,
then they load the affected tiles and build a `TiledImage`.  The two methods
differ only in which object loads the tile sources (`self._tiles` backed by
the cache manager vs. `self.tile_manager.load_tile_coords`); that loader is
the `loadTileSources` parameter here. -/

/-- Result of `grid.get_affected_tiles(req_bbox, out_size, req_srs)`:
either `(src_bbox, tile_grid, affected_tile_coords)` or one of the two
exceptions the caller catches.  The grid lives outside `cache.py`, so it is
an abstract input.  `none` entries in `coords` model out-of-bounds (`None`)
tile coordinates. -/
inductive AffectedTiles (β : Type) where
  | ok (srcBbox : β) (tileGrid : Nat × Nat) (coords : List (Option Coord))
  | indexError
  | noTiles
deriving DecidableEq

/-- Outcome of `_tiled_image`: the three raised exceptions or the built
`TiledImage` (kept as the loaded tile sources plus the passed-through
bbox and grid). -/
inductive TiledImageResult (β : Type) where
  | invalidBBOX
  | blankImage
  | tooManyTiles
  | tiledImage (tileSources : List (Option Nat)) (srcBbox : β) (tileGrid : Nat × Nat)
deriving DecidableEq

/-- `Cache._tiled_image` / `CacheMapLayer._tiled_image` (cache.py lines
116-131 and 789-805): the guard logic shared verbatim by both methods. -/
def tiledImageOf {β : Type} (aff : AffectedTiles β) (maxTileLimit : Nat)
    (loadTileSources : List (Option Coord) → List (Option Nat)) :
    TiledImageResult β :=
  match aff with
  | .indexError => .invalidBBOX
  | .noTiles => .blankImage
  | .ok srcBbox tileGrid coords =>
    if tileGrid.1 * tileGrid.2 ≥ maxTileLimit then
      .tooManyTiles
    else
      .tiledImage (loadTileSources coords) srcBbox tileGrid

/-! ## `HTTPClient.open`, success branch (claim C10)

`client/http.py` lines 180-185: once `self.opener.open` returned without an
exception, the code runs
`code = getattr(result, 'code', 200); if code == 204: raise HTTPClientError(...)`.
A response object without a `code` attribute is modelled by `code = none`. -/

/-- A response object as seen by the success branch of `HTTPClient.open`:
only its (possibly absent) `code` attribute matters there. -/
structure HTTPResponseT where
  code : Option Nat
deriving DecidableEq

/-- `HTTPClientError(arg, response_code=None, full_msg=None)` from
`client/http.py` lines 35-39 (the `full_msg` field is never set on the
204 path and is omitted). -/
structure HTTPClientErrorT where
  msg : String
  response_code : Option Nat
deriving DecidableEq

/-- The success (`else:`) branch of `HTTPClient.open`
(`client/http.py` lines 180-185). -/
def httpOpenSuccessBranch (result : HTTPResponseT) :
    Except HTTPClientErrorT HTTPResponseT :=
  let code := result.code.getD 200
  if code = 204 then
    .error { msg := "HTTP Error \"204 No Content\"", response_code := some 204 }
  else
    .ok result

/-! ## Decimal and hex formatting (Python `str`, `"%0Nd"`, `"%02x"`)

Python's `str(n)` and `"%03d" % n` for nonnegative `n` produce the decimal
digits of `n` (zero-padded on the left to the requested width, never
truncated).  The digit loop is written with explicit fuel so that it is
structurally recursive and kernel-reducible. -/

/-- Little-endian decimal digits of `n` as characters, with `fuel ≥ n`
guaranteeing enough iterations; `decDigitsAux fuel 0 = []`. -/
def decDigitsAux : Nat → Nat → List Char
  | 0, _ => []
  | _ + 1, 0 => []
  | fuel + 1, n + 1 => Char.ofNat (48 + (n + 1) % 10) :: decDigitsAux fuel ((n + 1) / 10)

/-- Big-endian decimal digits of `n`; `"0"` for zero (Python `str(n)`). -/
def decChars (n : Nat) : List Char :=
  if n = 0 then ['0'] else (decDigitsAux n n).reverse

/-- Python `str(n)` for a nonnegative int. -/
def decRepr (n : Nat) : String := ⟨decChars n⟩

/-- Python `"%0wd" % n`: the decimal digits of `n`, left-padded with `'0'`
to at least `w` characters. -/
def fmtChars (w : Nat) (n : Nat) : List Char :=
  List.replicate (w - (decChars n).length) '0' ++ decChars n

/-- Python `"%0wd" % n` as a string. -/
def fmtInt (w : Nat) (n : Nat) : String := ⟨fmtChars w n⟩

/-- Hex digit character (`0-9`, `a-f`) for `d < 16`. -/
def hexDigitChar (d : Nat) : Char :=
  Char.ofNat (if d < 10 then 48 + d else 87 + d)

/-- Little-endian hex digits of `n`, fuel-driven like `decDigitsAux`. -/
def hexDigitsAux : Nat → Nat → List Char
  | 0, _ => []
  | _ + 1, 0 => []
  | fuel + 1, n + 1 => hexDigitChar ((n + 1) % 16) :: hexDigitsAux fuel ((n + 1) / 16)

/-- Big-endian lower-case hex digits of `n`; `"0"` for zero. -/
def hexChars (n : Nat) : List Char :=
  if n = 0 then ['0'] else (hexDigitsAux n n).reverse

/-- Python `"%02x" % v`. -/
def fmtHex2 (v : Nat) : List Char :=
  List.replicate (2 - (hexChars v).length) '0' ++ hexChars v

/-! ## `os.path.join` (posix)

`posixpath.join(a, b)`: if `b` is absolute it replaces `a`; if `a` is empty
or ends with the separator, the parts are concatenated directly; otherwise a
`'/'` is inserted. -/

/-- `posixpath.join` for one extra component, on character lists. -/
def pathJoinL (a b : List Char) : List Char :=
  if b.head? = some '/' then b
  else if a = [] ∨ a.getLast? = some '/' then a ++ b
  else a ++ '/' :: b

/-- `posixpath.join` for one extra component, on strings. -/
def pathJoin (a b : String) : String := ⟨pathJoinL a.data b.data⟩

/-! ## Lock filenames (claim C3)

`FileCache.lock_filename` (cache.py lines 442-448) joins the lock dir with
`md5(cache_dir).hexdigest() + '-' + '-'.join(map(str, tile.coord)) + '.lck'`;
`TileSource.lock_filename` (lines 595-601) does the same with
`md5(str(self.id())).hexdigest()`.  `tile.coord` is `(x, y, z)`, so the
joined coordinate part is `x-y-z`.  The MD5 digest comes from `hashlib`
(outside the repository) and is modelled as an abstract digest function
`md5hex` passed to the definitions. -/

/-- `'-'.join(map(str, tile.coord))` for `tile.coord = (x, y, z)`. -/
def coordDashJoin (c : Coord) : String :=
  decRepr c.1 ++ "-" ++ decRepr c.2.1 ++ "-" ++ decRepr c.2.2

/-- `FileCache.lock_filename(tile)` (cache.py lines 442-448); `md5hex`
models `hashlib.md5(s).hexdigest()` and is applied to `self.cache_dir`. -/
def FileCache.lock_filename (md5hex : String → String)
    (cache_dir lock_dir : String) (coord : Coord) : String :=
  pathJoin lock_dir (md5hex cache_dir ++ "-" ++ coordDashJoin coord ++ ".lck")

/-- `TileSource.lock_filename(tile)` (cache.py lines 595-601); the digest is
taken of `str(self.id())`. -/
def TileSource.lock_filename (md5hex : String → String)
    (idStr lock_dir : String) (coord : Coord) : String :=
  pathJoin lock_dir (md5hex idStr ++ "-" ++ coordDashJoin coord ++ ".lck")

/-- Modelled from the spec's words for comparison (claim C3): the lock path
`<lock_dir>/<cache_id>-<z>-<x>-<y>.lck`. -/
def specLockFilename (lock_dir cache_id : String) (coord : Coord) : String :=
  lock_dir ++ "/" ++ cache_id ++ "-" ++ decRepr coord.2.2 ++ "-"
    ++ decRepr coord.1 ++ "-" ++ decRepr coord.2.1 ++ ".lck"

/-! ## `SRSConditional` (claim C2)

`cache.py` lines 737-769.  A spatial reference is modelled by its code and
its `is_latlong` attribute; the `srs_map` dict keys are either SRS objects
or the two class-tag strings `'GEOGRAPHIC'` / `'PROJECTED'`.  Sub-layers are
opaque ids.  CPython 2 dict iteration order is implementation-defined; the
model uses insertion order (the claim only demands *some* member of the
matching class / an arbitrary first member, so nothing below depends on the
particular order).  `get_map` computes `layer = self._select_layer(...)` and
then calls `self.layer.get_map(query)`; the instance has no attribute
`layer` (the constructor only sets `srs_map`), which is modelled by the
always-`none` field `layerAttr`. -/

/-- A spatial reference as used by `SRSConditional`. -/
structure SRST where
  srs_code : String
  is_latlong : Bool
deriving DecidableEq

/-- A key of `SRSConditional.srs_map`: an SRS object or a class tag string
(`'GEOGRAPHIC'` / `'PROJECTED'`). -/
inductive SRSKey where
  | srs (s : SRST)
  | tag (t : String)
deriving DecidableEq

/-- Python exceptions surfaced by the `SRSConditional` model. -/
inductive PyError where
  | attributeError (name : String)
  | stopIteration
deriving DecidableEq

/-- State of an `SRSConditional` instance: the `srs_map` dict (insertion
ordered) and the never-assigned `layer` attribute. -/
structure SRSConditionalT where
  srs_map : List (SRSKey × Nat)
  layerAttr : Option Nat
deriving DecidableEq

/-- Python dict assignment `m[k] = v` on an insertion-ordered assoc list. -/
def dictSet (m : List (SRSKey × Nat)) (k : SRSKey) (v : Nat) :
    List (SRSKey × Nat) :=
  if m.any (fun p => p.1 = k) then
    m.map (fun p => if p.1 = k then (k, v) else p)
  else
    m ++ [(k, v)]

/-- Python dict lookup `m[k]` / `k in m`. -/
def dictGet (m : List (SRSKey × Nat)) (k : SRSKey) : Option Nat :=
  (m.find? (fun p => p.1 = k)).map (fun p => p.2)

/-- `SRSConditional.__init__(layers)` (cache.py lines 741-746): each layer
comes with its list of keys; nested loops fill `srs_map`.  The `layer`
attribute is never assigned. -/
def SRSConditional.init (layers : List (Nat × List SRSKey)) : SRSConditionalT :=
  { srs_map :=
      layers.foldl
        (fun m p => p.2.foldl (fun m k => dictSet m k p.1) m) [],
    layerAttr := none }

/-- `SRSConditional._select_layer(query_srs)` (cache.py lines 752-769):
exact key match, then class-tag match, then first SRS key of the same
geographic/projected class, then the first value of the dict
(`itervalues().next()`, raising `StopIteration` on an empty dict). -/
def SRSConditional.select_layer (m : List (SRSKey × Nat)) (query_srs : SRST) :
    Except PyError Nat :=
  match dictGet m (.srs query_srs) with
  | some l => .ok l
  | none =>
    let srs_type : SRSKey :=
      .tag (if query_srs.is_latlong then "GEOGRAPHIC" else "PROJECTED")
    match dictGet m srs_type with
    | some l => .ok l
    | none =>
      match m.find? (fun p =>
          match p.1 with
          | .srs s => s.is_latlong = query_srs.is_latlong
          | .tag _ => false) with
      | some p => .ok p.2
      | none =>
        match m with
        | [] => .error .stopIteration
        | p :: _ => .ok p.2

/-- `SRSConditional.get_map(query)` (cache.py lines 748-750): selects a
layer, binds it to the local variable `layer`, then calls
`self.layer.get_map(query)` — an attribute that was never assigned (reading
it raises `AttributeError`). -/
def SRSConditional.get_map (self : SRSConditionalT) (query_srs : SRST) :
    Except PyError Nat :=
  match SRSConditional.select_layer self.srs_map query_srs with
  | .error e => .error e
  | .ok _layer =>
    match self.layerAttr with
    | none => .error (.attributeError "layer")
    | some l => .ok l

/-! ## `FileCache` path layout (claim C7)

`FileCache.level_location` (cache.py lines 296-304) and
`FileCache.tile_location` (lines 306-331).  The path computation is pure;
the memoization on `tile.location` and the optional directory creation do
not change the computed path. -/

/-- `FileCache.level_location(level)`: `os.path.join(cache_dir, "%02d" % level)`. -/
def FileCache.level_location (cache_dir : String) (level : Nat) : String :=
  pathJoin cache_dir (fmtInt 2 level)

/-- `FileCache.tile_location(tile)` for `tile.coord = (x, y, z)`:
`os.path.join(level_location(z), "%03d" % (x // 10^6),
"%03d" % (x // 10^3 % 10^3), "%03d" % (x % 10^3), "%03d" % (y // 10^6),
"%03d" % (y // 10^3 % 10^3), "%03d.%s" % (y % 10^3, file_ext))`
(Python 2 `/` on nonnegative ints is floor division). -/
def FileCache.tile_location_path (cache_dir file_ext : String) (c : Coord) :
    String :=
  let x := c.1
  let y := c.2.1
  let z := c.2.2
  ⟨[fmtChars 3 (x / 1000000), fmtChars 3 (x / 1000 % 1000),
    fmtChars 3 (x % 1000), fmtChars 3 (y / 1000000),
    fmtChars 3 (y / 1000 % 1000),
    fmtChars 3 (y % 1000) ++ '.' :: file_ext.data].foldl pathJoinL
      (FileCache.level_location cache_dir z).data⟩

/-! ## `_ThreadedTileCreator` (claim C4)

`cache.py` lines 514-561.  The tiles handed to the creator are missing
tiles, so their coords are non-null and a tile is identified by its coord
here.  `lockName` is `self.tile_source.lock_filename`; `createTile` models
`self._create_tile(tile, tile_collection)` (lines 543-548: lock, recheck
`is_cached`, create and store), which returns `None` on a cache hit. -/

/-- The loop of `_ThreadedTileCreator._sort_tiles(tiles)` (lines 550-561):
a tile whose lock filename was already seen joins `other_tiles`, otherwise
it becomes the representative for that lock filename.  Representatives are
kept in first-occurrence order (CPython 2 `dict.values()` order is
implementation-defined; no theorem below depends on the order). -/
def sortTilesGo (lockName : Coord → String) :
    List Coord → List Coord → List Coord → List Coord × List Coord
  | [], uniq, other => (uniq, other)
  | t :: ts, uniq, other =>
    if uniq.any (fun u => lockName u = lockName t) then
      sortTilesGo lockName ts uniq (other ++ [t])
    else
      sortTilesGo lockName ts (uniq ++ [t]) other

/-- `_ThreadedTileCreator._sort_tiles(tiles)`: returns
`(unique_meta_tiles, other_tiles)`. -/
def ThreadedTileCreator.sort_tiles (lockName : Coord → String)
    (tiles : List Coord) : List Coord × List Coord :=
  sortTilesGo lockName tiles [] []

/-- `_ThreadedTileCreator.create_tiles(tiles, tile_collection)` (lines
518-527) together with `_create_multiple_tiles` (lines 529-541).  The
returned flag records whether the thread-pool path ran; with a single
representative the creation runs inline (`don't start thread pool for one
tile`).  The pool path maps `_create_tile` over the representatives and
concatenates the non-`None` results. -/
def ThreadedTileCreator.create_tiles (lockName : Coord → String)
    (createTile : Coord → Option (List Coord)) (tiles : List Coord) :
    List Coord × Bool :=
  match (ThreadedTileCreator.sort_tiles lockName tiles).1 with
  | [u] =>
    (match createTile u with
     | none => []
     | some newTiles => newTiles,
     false)
  | uniq =>
    ((uniq.map createTile).foldl
      (fun acc v => match v with | none => acc | some l => acc ++ l) [],
     true)

/-- Value of a little-endian digit character list (proof-side inverse of
the decimal formatting functions). -/
def valLE (l : List Char) : Nat :=
  l.foldr (fun c acc => 10 * acc + (c.toNat - 48)) 0

/-- Value of a big-endian digit character list. -/
def valBE (l : List Char) : Nat :=
  l.foldl (fun acc c => 10 * acc + (c.toNat - 48)) 0

/-! ## `TiledSource.get` (claim C9)

`cache.py` lines 985-1002.  The grid's `get_affected_tiles(bbox, size)`
lives in `mapproxy.core.grid` (outside the embedded file) and is an
abstract parameter returning `(bbox, grid, tile iterator)`. -/

/-- A map query as `TiledSource.get` sees it: bbox (abstract type `β`),
pixel size, and srs (opaque id). -/
structure TiledQuery (β : Type) where
  bbox : β
  size : Nat × Nat
  srs : Nat

/-- Exceptions raised by `TiledSource.get`: `InvalidSourceQuery` (with the
optional message of cache.py line 999) and `StopIteration` from
`tiles.next()` on an empty iterator. -/
inductive TiledGetErr where
  | invalidSourceQuery (msg : Option String)
  | stopIteration
deriving DecidableEq

/-- `TiledSource.get(query)` (cache.py lines 990-1002): reject a size
differing from the grid's `tile_size`, an srs differing from the grid's
srs, and a non-1×1 affected grid; otherwise return `client.get_tile` of the
first affected tile. -/
def TiledSource.get {β γ : Type} (tile_size : Nat × Nat) (srs : Nat)
    (affected : β → Nat × Nat → β × (Nat × Nat) × List Coord)
    (get_tile : Coord → γ) (query : TiledQuery β) : Except TiledGetErr γ :=
  if tile_size ≠ query.size then .error (.invalidSourceQuery none)
  else if srs ≠ query.srs then .error (.invalidSourceQuery none)
  else
    let r := affected query.bbox query.size
    if r.2.1 ≠ (1, 1) then
      .error (.invalidSourceQuery (some "bbox does not align to tile"))
    else
      match r.2.2 with
      | [] => .error .stopIteration
      | t :: _ => .ok (get_tile t)

/-! ## `FileCache` storage (claim C6)

`cache.py` lines 268-458.  The filesystem is explicit state: regular files
and symlinks.  `is_single_color_image` and the byte length of an image
buffer come from the image library and are parameters; `time.time()` is the
parameter `now`.  Python errors (calling `as_image`/`as_buffer` on a `None`
source, unpacking a `None` coord) make the operations `Option`-valued. -/

/-- An image handle held in `tile.source`: an in-memory/upstream image or
an `ImageSource(location)` handle referencing a cache file. -/
inductive ImgSrc where
  | mem (id : Nat)
  | path (location : String)
deriving DecidableEq

/-- The `_Tile` object (cache.py lines 619-692). -/
structure Tile where
  coord : Option Coord
  source : Option ImgSrc
  location : Option String
  stored : Bool
  size : Option Nat
  timestamp : Option Nat
deriving DecidableEq

/-- `_Tile(coord)` constructor defaults (lines 626-632). -/
def Tile.init (coord : Option Coord) : Tile :=
  { coord := coord, source := none, location := none, stored := false,
    size := none, timestamp := none }

/-- `_Tile.is_missing()` (lines 646-660): `False` for a null coord,
otherwise whether the source is absent. -/
def Tile.is_missing (t : Tile) : Bool :=
  match t.coord with
  | none => false
  | some _ => t.source.isNone

/-- Filesystem state: regular files and symlinks (link path ↦ target).
`os.path.exists` follows links (a dangling link does not exist, cf. the
comment at cache.py lines 415-417); `os.path.islink` tests link-ness. -/
structure FS where
  files : List String
  links : List (String × String)
deriving DecidableEq

/-- `os.path.islink(p)`. -/
def FS.islink (fs : FS) (p : String) : Bool :=
  fs.links.any (fun l => l.1 = p)

/-- `os.path.exists(p)`: a regular file, or a symlink whose target is a
regular file. -/
def FS.pexists (fs : FS) (p : String) : Bool :=
  fs.files.contains p
    || fs.links.any (fun l => l.1 = p && fs.files.contains l.2)

/-- `os.unlink(p)`. -/
def FS.unlink (fs : FS) (p : String) : FS :=
  { files := fs.files.filter (fun q => q ≠ p),
    links := fs.links.filter (fun l => l.1 ≠ p) }

/-- `open(p, 'wb').write(...)`: afterwards a regular file exists at `p`. -/
def FS.writeFile (fs : FS) (p : String) : FS :=
  { files := p :: fs.files.filter (fun q => q ≠ p), links := fs.links }

/-- `os.symlink(target, p)`. -/
def FS.symlink (fs : FS) (target p : String) : FS :=
  { files := fs.files, links := (p, target) :: fs.links }

/-- Configuration of a `FileCache` (cache.py lines 272-294). -/
structure FileCacheT where
  cache_dir : String
  file_ext : String
  link_single_color_images : Bool
deriving DecidableEq

/-- `FileCache.tile_location(tile)` including the memoization on
`tile.location` (lines 306-331); `none` when `tile.coord` is null
(unpacking `None` raises `TypeError`).  Directory creation does not change
the path and is not part of the filesystem model. -/
def FileCache.tile_location (fc : FileCacheT) (t : Tile) :
    Option (String × Tile) :=
  match t.location with
  | some l => some (l, t)
  | none =>
    match t.coord with
    | none => none
    | some c =>
      let l := FileCache.tile_location_path fc.cache_dir fc.file_ext c
      some (l, { t with location := some l })

/-- `FileCache._single_color_tile_location(color)` (lines 333-347):
`os.path.join(cache_dir, 'single_color_tiles', hex color + '.' + ext)`. -/
def FileCache.single_color_tile_location (fc : FileCacheT)
    (color : List Nat) : String :=
  pathJoin (pathJoin fc.cache_dir "single_color_tiles")
    ⟨(color.map fmtHex2).flatten ++ '.' :: fc.file_ext.data⟩

/-- `FileCache._store(tile, location)` (lines 426-440): unlink a symlink at
`location`, run the pre-store filters, write the buffer, set `size`,
`timestamp` and `stored := True`.  `imgLen` models `data.tell()` after the
write. -/
def FileCache.store_at (filters : List (Tile → Tile)) (imgLen : ImgSrc → Nat)
    (now : Nat) (fs : FS) (t : Tile) (location : String) :
    Option (FS × Tile) :=
  let fs1 := if fs.islink location then fs.unlink location else fs
  let t1 := filters.foldl (fun acc f => f acc) t
  match t1.source with
  | none => none
  | some src =>
    some (fs1.writeFile location,
          { t1 with size := some (imgLen src),
                    timestamp := some now, stored := true })

/-- `FileCache.store(tile)` (lines 392-424): no-op for an already-stored
tile; otherwise compute the location and either write the tile, or — with
`link_single_color_images` and a monochrome image — write the shared color
file if missing and replace the tile location with a symlink to it. -/
def FileCache.store (fc : FileCacheT) (filters : List (Tile → Tile))
    (single_color : ImgSrc → Option (List Nat)) (imgLen : ImgSrc → Nat)
    (now : Nat) (fs : FS) (t : Tile) : Option (FS × Tile) :=
  if t.stored then some (fs, t)
  else
    match FileCache.tile_location fc t with
    | none => none
    | some (tile_loc, t1) =>
      if fc.link_single_color_images then
        match t1.source with
        | none => none
        | some src =>
          match single_color src with
          | some color =>
            let real_loc := FileCache.single_color_tile_location fc color
            match
              (if fs.pexists real_loc then some (fs, t1)
               else FileCache.store_at filters imgLen now fs t1 real_loc) with
            | none => none
            | some (fs1, t2) =>
              let fs2 :=
                if fs1.pexists tile_loc || fs1.islink tile_loc then
                  fs1.unlink tile_loc
                else fs1
              some (fs2.symlink real_loc tile_loc, t2)
          | none => FileCache.store_at filters imgLen now fs t1 tile_loc
      else FileCache.store_at filters imgLen now fs t1 tile_loc

/-- `FileCache.is_cached(tile)` (lines 362-373). -/
def FileCache.is_cached (fc : FileCacheT) (fs : FS) (t : Tile) :
    Option (Bool × Tile) :=
  if t.is_missing then
    match FileCache.tile_location fc t with
    | none => none
    | some (loc, t1) => some (fs.pexists loc, t1)
  else
    some (true, t)

/-- `FileCache.load(tile)` (lines 375-390), without metadata: fills
`tile.source` with an `ImageSource(location)` handle when the file
exists; a no-op returning `True` when the tile is not missing. -/
def FileCache.load (fc : FileCacheT) (fs : FS) (t : Tile) :
    Option (Bool × Tile) :=
  if t.is_missing then
    match FileCache.tile_location fc t with
    | none => none
    | some (loc, t1) =>
      if fs.pexists loc then
        some (true, { t1 with source := some (.path loc) })
      else
        some (false, t1)
  else
    some (true, t)

/-! ## `TileManager` tile creation (claims C5, C8)

`cache.py` lines 808-917.  The grid and meta-grid (`tile_bbox`,
`tile_size`, `meta_bbox`, `meta_grid.tiles`, `meta_grid.tile_size`) live in
`mapproxy.core.grid` and are abstract parameters; so are the single
upstream source (`self.sources[0].get`) and the image splitter.  The bbox
type `β` is abstract.  The observable effects — upstream queries issued,
`file_cache.store` calls, cache contents, lock acquire/release — are
threaded as explicit state. -/

/-- What `sources[0].get(query)` can raise: the caught `HTTPClientError`
(carrying its first `args` entry) or any other exception. -/
inductive UpstreamErr where
  | httpClientError (msg : String)
  | otherExc (name : String)
deriving DecidableEq

/-- Exceptions escaping `TileManager._create_tile` / `_create_meta_tile` /
`_create_meta_tiles`. -/
inductive TMErr where
  | tileSourceError (msg : String)
  | otherExc (name : String)
  | indexError
deriving DecidableEq

/-- `MapQuery(bbox, size, srs, format)` as built by `TileManager` (lines
861 and 884); srs and format are opaque ids. -/
structure TMQuery (β : Type) where
  bbox : β
  size : Nat × Nat
  srs : Nat
  format : Nat
deriving DecidableEq

/-- External collaborators of the tile-creation paths. -/
structure TMEnv (β : Type) where
  srs : Nat
  format : Nat
  grid_tile_size : Nat × Nat
  tile_bbox : Coord → β
  meta_bbox : Coord → β
  meta_tiles : Coord → List (Coord × (Nat × Nat))
  meta_tile_size : Nat → Nat × Nat
  sourceGet : TMQuery β → Except UpstreamErr Nat
  splitTile : Nat → Nat × Nat → Nat × Nat → Nat

/-- Observable state of a creation run: coords present in the file cache,
upstream queries issued (in order), coords stored, tile locks acquired and
released. -/
structure TMTrace (β : Type) where
  cache : List Coord
  fetches : List (TMQuery β)
  stored : List Coord
  locked : List Coord
  released : List Coord
deriving DecidableEq

/-- The `MapQuery` built by `_create_tile` (line 861). -/
def TMEnv.tileQuery {β : Type} (env : TMEnv β) (c : Coord) : TMQuery β :=
  { bbox := env.tile_bbox c, size := env.grid_tile_size, srs := env.srs,
    format := env.format }

/-- The `MapQuery` built by `_create_meta_tile` (line 884) for a meta tile
whose main tile sits at level `z`. -/
def TMEnv.metaQuery {β : Type} (env : TMEnv β) (mbbox : β) (z : Nat) :
    TMQuery β :=
  { bbox := mbbox, size := env.meta_tile_size z, srs := env.srs,
    format := env.format }

/-- `TileManager._create_tile(tile)` (lines 858-871): under the tile lock,
recheck `is_cached`; on a miss fetch the tile query (re-raising
`HTTPClientError` as `TileSourceError` with the same first message) and
store it; on a hit load from the cache.  The lock is released on every
path (`with` statement). -/
def TileManager.create_tile {β : Type} (env : TMEnv β) (st : TMTrace β)
    (c : Coord) : Except TMErr (List Coord) × TMTrace β :=
  let query := env.tileQuery c
  let st1 := { st with locked := st.locked ++ [c] }
  if c ∈ st1.cache then
    (.ok [c], { st1 with released := st1.released ++ [c] })
  else
    match env.sourceGet query with
    | .error (.httpClientError m) =>
      (.error (.tileSourceError m),
       { st1 with fetches := st1.fetches ++ [query],
                  released := st1.released ++ [c] })
    | .error (.otherExc n) =>
      (.error (.otherExc n),
       { st1 with fetches := st1.fetches ++ [query],
                  released := st1.released ++ [c] })
    | .ok _img =>
      (.ok [c],
       { st1 with fetches := st1.fetches ++ [query],
                  stored := st1.stored ++ [c],
                  cache := st1.cache ++ [c],
                  released := st1.released ++ [c] })

/-- `TileManager._create_meta_tile(main_tile, meta_bbox, tiles)` (lines
882-899): under the main tile's lock, recheck `is_cached(main_tile)`; on a
miss fetch the meta query once (same `HTTPClientError` mapping), split the
meta image and store every constituent tile; on a hit load each constituent
tile from the cache. -/
def TileManager.create_meta_tile {β : Type} (env : TMEnv β) (st : TMTrace β)
    (mainC : Coord) (mbbox : β) (tiles : List (Coord × (Nat × Nat))) :
    Except TMErr (List Coord) × TMTrace β :=
  let query := env.metaQuery mbbox mainC.2.2
  let st1 := { st with locked := st.locked ++ [mainC] }
  if mainC ∈ st1.cache then
    (.ok (tiles.map Prod.fst), { st1 with released := st1.released ++ [mainC] })
  else
    match env.sourceGet query with
    | .error (.httpClientError m) =>
      (.error (.tileSourceError m),
       { st1 with fetches := st1.fetches ++ [query],
                  released := st1.released ++ [mainC] })
    | .error (.otherExc n) =>
      (.error (.otherExc n),
       { st1 with fetches := st1.fetches ++ [query],
                  released := st1.released ++ [mainC] })
    | .ok _img =>
      (.ok (tiles.map Prod.fst),
       { st1 with fetches := st1.fetches ++ [query],
                  stored := st1.stored ++ tiles.map Prod.fst,
                  cache := st1.cache ++ tiles.map Prod.fst,
                  released := st1.released ++ [mainC] })

/-- The loop of `TileManager._create_meta_tiles(meta_tiles)` (lines
873-880): for each `(tile, meta_bbox)` bucket, list the constituent tiles
of the meta grid, take the first as `main_tile` (`tiles[0][0]`, raising
`IndexError` on an empty listing) and extend with `_create_meta_tile`. -/
def TileManager.create_meta_tiles {β : Type} (env : TMEnv β) :
    List (Coord × β) → TMTrace β → Except TMErr (List Coord) × TMTrace β
  | [], st => (.ok [], st)
  | (repC, mbbox) :: rest, st =>
    match env.meta_tiles repC with
    | [] => (.error .indexError, st)
    | (c0, p0) :: more =>
      match TileManager.create_meta_tile env st c0 mbbox ((c0, p0) :: more) with
      | (.error e, st1) => (.error e, st1)
      | (.ok created, st1) =>
        match TileManager.create_meta_tiles env rest st1 with
        | (.error e, st2) => (.error e, st2)
        | (.ok more_created, st2) => (.ok (created ++ more_created), st2)

/-- The bucketing loop of `TileManager._create_tiles` (lines 846-852):
keep the first `(tile, meta_bbox)` per distinct meta bbox (the
`meta_bboxes` set is the `seen` accumulator). -/
def TileManager.bucket_meta {β : Type} [DecidableEq β] (env : TMEnv β) :
    List Coord → List (Coord × β) → List β → List (Coord × β)
  | [], acc, _ => acc
  | c :: cs, acc, seen =>
    let mb := env.meta_bbox c
    if mb ∈ seen then TileManager.bucket_meta env cs acc seen
    else TileManager.bucket_meta env cs (acc ++ [(c, mb)]) (mb :: seen)

/-- The per-tile loop of `_create_tiles` without a meta grid (lines
842-844). -/
def TileManager.create_each {β : Type} (env : TMEnv β) :
    List Coord → TMTrace β → Except TMErr (List Coord) × TMTrace β
  | [], st => (.ok [], st)
  | c :: cs, st =>
    match TileManager.create_tile env st c with
    | (.error e, st1) => (.error e, st1)
    | (.ok created, st1) =>
      match TileManager.create_each env cs st1 with
      | (.error e, st2) => (.error e, st2)
      | (.ok more_created, st2) => (.ok (created ++ more_created), st2)

/-- `TileManager._create_tiles(tiles)` (lines 840-856): without a meta
grid create each tile individually; otherwise bucket by meta bbox and run
`_create_meta_tiles` on the buckets.  `useMeta` models `self.meta_grid`
being set (meta size and buffer configured and the source supporting meta
tiles). -/
def TileManager.create_tiles_run {β : Type} [DecidableEq β] (env : TMEnv β)
    (useMeta : Bool) (tiles : List Coord) (st : TMTrace β) :
    Except TMErr (List Coord) × TMTrace β :=
  if useMeta then
    TileManager.create_meta_tiles env (TileManager.bucket_meta env tiles [] []) st
  else
    TileManager.create_each env tiles st

/-- The main tile coordinate of the meta tile at `c`: `tiles[0][0]`
(defaulting arbitrarily; only used under a nonempty-listing hypothesis). -/
def TMEnv.metaMain {β : Type} (env : TMEnv β) (c : Coord) : Coord :=
  ((env.meta_tiles c).headD (c, (0, 0))).1

/-- Concrete test fixture: a 2×1 meta grid over levels of a tiny pyramid
(meta bbox of a tile is `x / 2`; each meta tile covers the two tiles of
that pair), with an upstream that always returns image 5. -/
def metaEnvFixture : TMEnv Nat :=
  ⟨4326, 1, (256, 256), (fun c => c.1), (fun c => c.1 / 2),
   (fun c => [((2 * (c.1 / 2), c.2.1, c.2.2), (0, 0)),
              ((2 * (c.1 / 2) + 1, c.2.1, c.2.2), (1, 0))]),
   (fun _ => (512, 512)), (fun _ => .ok 5), (fun _ _ _ => 0)⟩

/-! # Theorems -/

/-! ## Decimal formatting lemmas -/

theorem charDigit_toNat {m : Nat} (h : m < 10) :
    (Char.ofNat (48 + m)).toNat = 48 + m := by
  interval_cases m <;> decide

theorem decDigitsAux_valLE : ∀ (fuel n : Nat), n ≤ fuel →
    valLE (decDigitsAux fuel n) = n := by
  intro fuel
  induction fuel with
  | zero =>
    intro n h
    interval_cases n
    rfl
  | succ f ih =>
    intro n h
    match n with
    | 0 => rfl
    | m + 1 =>
      have hlt : (m + 1) % 10 < 10 := Nat.mod_lt _ (by omega)
      have hdiv : (m + 1) / 10 ≤ f := by omega
      have hcons : decDigitsAux (f + 1) (m + 1)
          = Char.ofNat (48 + (m + 1) % 10) :: decDigitsAux f ((m + 1) / 10) := rfl
      have hstep : valLE (Char.ofNat (48 + (m + 1) % 10) :: decDigitsAux f ((m + 1) / 10))
          = 10 * valLE (decDigitsAux f ((m + 1) / 10))
            + ((Char.ofNat (48 + (m + 1) % 10)).toNat - 48) := rfl
      rw [hcons, hstep, ih _ hdiv, charDigit_toNat hlt]
      omega

theorem decDigitsAux_digits : ∀ (fuel n : Nat), ∀ c ∈ decDigitsAux fuel n,
    48 ≤ c.toNat ∧ c.toNat ≤ 57 := by
  intro fuel
  induction fuel with
  | zero =>
    intro n c hc
    simp [decDigitsAux] at hc
  | succ f ih =>
    intro n c hc
    match n with
    | 0 => simp [decDigitsAux] at hc
    | m + 1 =>
      have hcons : decDigitsAux (f + 1) (m + 1)
          = Char.ofNat (48 + (m + 1) % 10) :: decDigitsAux f ((m + 1) / 10) := rfl
      rw [hcons] at hc
      rcases List.mem_cons.mp hc with h | h
      · have hlt : (m + 1) % 10 < 10 := Nat.mod_lt _ (by omega)
        subst h
        rw [charDigit_toNat hlt]
        omega
      · exact ih _ c h

theorem valBE_reverse (l : List Char) : valBE l.reverse = valLE l := by
  simp [valBE, valLE, List.foldl_reverse]

theorem valBE_decChars (n : Nat) : valBE (decChars n) = n := by
  unfold decChars
  by_cases h : n = 0
  · subst h
    decide
  · rw [if_neg h, valBE_reverse, decDigitsAux_valLE n n le_rfl]

theorem valBE_cons_zero (l : List Char) : valBE ('0' :: l) = valBE l := rfl

theorem valBE_zeros_append (k : Nat) (l : List Char) :
    valBE (List.replicate k '0' ++ l) = valBE l := by
  induction k with
  | zero => rfl
  | succ j ih =>
    rw [List.replicate_succ, List.cons_append, valBE_cons_zero, ih]

theorem valBE_fmtChars (w n : Nat) : valBE (fmtChars w n) = n := by
  rw [fmtChars, valBE_zeros_append, valBE_decChars]

theorem decChars_inj {a b : Nat} (h : decChars a = decChars b) : a = b := by
  have hv := congrArg valBE h
  rwa [valBE_decChars, valBE_decChars] at hv

theorem fmtChars_inj {w a b : Nat} (h : fmtChars w a = fmtChars w b) : a = b := by
  have hv := congrArg valBE h
  rwa [valBE_fmtChars, valBE_fmtChars] at hv

theorem decChars_digits (n : Nat) : ∀ c ∈ decChars n,
    48 ≤ c.toNat ∧ c.toNat ≤ 57 := by
  intro c hc
  unfold decChars at hc
  by_cases h : n = 0
  · rw [if_pos h] at hc
    simp at hc
    subst hc
    decide
  · rw [if_neg h] at hc
    exact decDigitsAux_digits n n c (List.mem_reverse.mp hc)

theorem fmtChars_digits (w n : Nat) : ∀ c ∈ fmtChars w n,
    48 ≤ c.toNat ∧ c.toNat ≤ 57 := by
  intro c hc
  rcases List.mem_append.mp hc with h | h
  · have := List.eq_of_mem_replicate h
    subst this
    decide
  · exact decChars_digits n c h

theorem digit_ne_sep {c : Char} (h48 : 48 ≤ c.toNat) (_h57 : c.toNat ≤ 57) :
    c ≠ '/' ∧ c ≠ '.' ∧ c ≠ '-' := by
  refine ⟨?_, ?_, ?_⟩ <;> rintro rfl <;> exact absurd h48 (by decide)

theorem decChars_ne_nil (n : Nat) : decChars n ≠ [] := by
  unfold decChars
  by_cases h : n = 0
  · simp [h]
  · rw [if_neg h]
    match n, h with
    | m + 1, _ =>
      have hcons : decDigitsAux (m + 1) (m + 1)
          = Char.ofNat (48 + (m + 1) % 10) :: decDigitsAux m ((m + 1) / 10) := rfl
      simp [hcons]

theorem fmtChars_ne_nil (w n : Nat) : fmtChars w n ≠ [] := by
  unfold fmtChars
  intro h
  rcases List.append_eq_nil.mp h with ⟨_, h2⟩
  exact decChars_ne_nil n h2

theorem decChars_ne_dash (n : Nat) : ∀ ch ∈ decChars n, ch ≠ '-' :=
  fun ch hch =>
    (digit_ne_sep (decChars_digits n ch hch).1 (decChars_digits n ch hch).2).2.2

theorem decChars_ne_dot (n : Nat) : ∀ ch ∈ decChars n, ch ≠ '.' :=
  fun ch hch =>
    (digit_ne_sep (decChars_digits n ch hch).1 (decChars_digits n ch hch).2).2.1

theorem decChars_ne_slash (n : Nat) : ∀ ch ∈ decChars n, ch ≠ '/' :=
  fun ch hch =>
    (digit_ne_sep (decChars_digits n ch hch).1 (decChars_digits n ch hch).2).1

theorem fmtChars_ne_slash (w n : Nat) : ∀ ch ∈ fmtChars w n, ch ≠ '/' :=
  fun ch hch =>
    (digit_ne_sep (fmtChars_digits w n ch hch).1 (fmtChars_digits w n ch hch).2).1

theorem fmtChars_ne_dot (w n : Nat) : ∀ ch ∈ fmtChars w n, ch ≠ '.' :=
  fun ch hch =>
    (digit_ne_sep (fmtChars_digits w n ch hch).1 (fmtChars_digits w n ch hch).2).2.1

theorem data_mk (l : List Char) : (String.mk l).data = l := rfl

/-- Peeling a unique separator: if neither `a` nor `b` contains `sep`, then
`a ++ sep :: c = b ++ sep :: d` forces `a = b` and `c = d`. -/
theorem sep_peel {sep : Char} : ∀ {a b c d : List Char},
    (∀ ch ∈ a, ch ≠ sep) → (∀ ch ∈ b, ch ≠ sep) →
    a ++ sep :: c = b ++ sep :: d → a = b ∧ c = d := by
  intro a
  induction a with
  | nil =>
    intro b c d _ hb h
    match b with
    | [] => simpa using h
    | x :: bs =>
      simp at h
      exact absurd h.1.symm (hb x (by simp))
  | cons x as ih =>
    intro b c d ha hb h
    match b with
    | [] =>
      simp at h
      exact absurd h.1 (ha x (by simp))
    | y :: bs =>
      simp at h
      obtain ⟨hxy, hrest⟩ := h
      obtain ⟨hab, hcd⟩ := ih (fun ch hch => ha ch (by simp [hch]))
        (fun ch hch => hb ch (by simp [hch])) hrest
      exact ⟨by simp [hxy, hab], hcd⟩

/-- `pathJoinL` is injective in its second argument when the two suffixes
start with the same character. -/
theorem pathJoinL_inj_right {a b b' : List Char} (hh : b.head? = b'.head?)
    (h : pathJoinL a b = pathJoinL a b') : b = b' := by
  unfold pathJoinL at h
  by_cases h1 : b.head? = some '/'
  · have h1b : b'.head? = some '/' := hh ▸ h1
    rwa [if_pos h1, if_pos h1b] at h
  · have h1b : ¬ b'.head? = some '/' := by
      rw [← hh]
      exact h1
    rw [if_neg h1, if_neg h1b] at h
    by_cases h2 : a = [] ∨ a.getLast? = some '/'
    · rw [if_pos h2, if_pos h2] at h
      exact List.append_cancel_left h
    · rw [if_neg h2, if_neg h2] at h
      exact (List.cons.inj (List.append_cancel_left h)).2

/-- Character data of the lock-filename suffix, in right-nested normal
form. -/
theorem lock_suffix_data (h : String) (x y z : Nat) :
    (h ++ "-" ++ coordDashJoin (x, y, z) ++ ".lck").data
      = h.data ++ '-' :: (decChars x ++ '-' :: (decChars y ++ '-'
          :: (decChars z ++ ['.', 'l', 'c', 'k']))) := by
  have hdash : ("-" : String).data = ['-'] := rfl
  have hlck : (".lck" : String).data = ['.', 'l', 'c', 'k'] := rfl
  have hx : (decRepr x).data = decChars x := rfl
  have hy : (decRepr y).data = decChars y := rfl
  have hz : (decRepr z).data = decChars z := rfl
  simp [coordDashJoin, String.data_append, hdash, hlck, hx, hy, hz]

theorem head?_append_cons (s : List Char) (c : Char) (l l' : List Char) :
    (s ++ c :: l).head? = (s ++ c :: l').head? := by
  cases s <;> rfl

/-- Claim C1, counterexample: with `max_tile_limit = 1` and an affected grid
of exactly `1 × 1` tiles (tile count equal to the limit), `_tiled_image`
raises `TooManyTilesError` — the claim says such a request is served.  The
guard is `num_tiles >= max_tile_limit`, so equality already raises. -/
theorem C1_equal_limit_raises :
    tiledImageOf (AffectedTiles.ok 0 (1, 1) [some (0, 0, 0)]) 1
        (fun cs => cs.map (fun _ => some 0))
      = TiledImageResult.tooManyTiles ∧ 1 * 1 = 1 := by
  constructor
  · rfl
  · rfl

/-- Claim C1 as amended: `_tiled_image` raises `TooManyTilesError` exactly
when the affected tile count is at least `max_tile_limit` (so both a count
equal to the limit and `limit + 1` raise), and any request with fewer
affected tiles than the limit is served as a `TiledImage` built from the
loaded tile sources. -/
theorem C1_tile_limit_boundary {β : Type} (srcBbox : β) (tileGrid : Nat × Nat)
    (coords : List (Option Coord)) (maxTileLimit : Nat)
    (load : List (Option Coord) → List (Option Nat)) :
    (tiledImageOf (AffectedTiles.ok srcBbox tileGrid coords) maxTileLimit load
        = TiledImageResult.tooManyTiles
      ↔ maxTileLimit ≤ tileGrid.1 * tileGrid.2) ∧
    (tiledImageOf (AffectedTiles.ok srcBbox tileGrid coords) maxTileLimit load
        = TiledImageResult.tiledImage (load coords) srcBbox tileGrid
      ↔ tileGrid.1 * tileGrid.2 < maxTileLimit) := by
  unfold tiledImageOf
  by_cases h : tileGrid.1 * tileGrid.2 ≥ maxTileLimit
  · simp [h]
  · simp [h]
    omega

/-- Claim C10: the success branch of `HTTPClient.open` raises
`HTTPClientError` with `response_code = 204` exactly when the response's
`code` attribute (defaulting to 200 when absent) is 204, and every other
response that reaches the success branch is returned unchanged. -/
theorem C10_204_raises (result : HTTPResponseT) :
    (httpOpenSuccessBranch result
        = Except.error { msg := "HTTP Error \"204 No Content\"",
                         response_code := some 204 }
      ↔ result.code.getD 200 = 204) ∧
    (httpOpenSuccessBranch result = Except.ok result
      ↔ result.code.getD 200 ≠ 204) := by
  unfold httpOpenSuccessBranch
  by_cases h : result.code.getD 200 = 204 <;> simp [h]

/-! ## Claim C2: `SRSConditional.get_map` -/

/-- Claim C2: the code bug.  `_select_layer` implements exactly the claimed
priority rules — in the spec's S5 scenario (map `EPSG:3857 → layer 1`,
`EPSG:4326 → layer 2`, query in the projected-but-unknown `EPSG:25832`) it
selects layer 1, the first projected member.  But `get_map` then calls
`self.layer.get_map(query)` on the never-assigned attribute `layer`, so for
every constructed `SRSConditional` and every query `get_map` raises instead
of returning the selected layer's map: the claim describes the clear
intent, the code drops the selected layer. -/
theorem C2_get_map_attribute_error :
    (∀ (layers : List (Nat × List SRSKey)) (q : SRST),
        ∃ e, SRSConditional.get_map (SRSConditional.init layers) q
          = Except.error e) ∧
    SRSConditional.select_layer
        (SRSConditional.init [(1, [SRSKey.srs ⟨"EPSG:3857", false⟩]),
                              (2, [SRSKey.srs ⟨"EPSG:4326", true⟩])]).srs_map
        ⟨"EPSG:25832", false⟩ = Except.ok 1 ∧
    SRSConditional.get_map
        (SRSConditional.init [(1, [SRSKey.srs ⟨"EPSG:3857", false⟩]),
                              (2, [SRSKey.srs ⟨"EPSG:4326", true⟩])])
        ⟨"EPSG:25832", false⟩
      = Except.error (PyError.attributeError "layer") := by
  refine ⟨?_, by rfl, by rfl⟩
  intro layers q
  cases h : SRSConditional.select_layer (SRSConditional.init layers).srs_map q with
  | error e =>
    exact ⟨e, by simp [SRSConditional.get_map, h]⟩
  | ok l =>
    refine ⟨.attributeError "layer", ?_⟩
    simp only [SRSConditional.get_map, h]
    rfl

/-! ## Claim C3: lock filenames -/

/-- Claim C3, counterexample: the code joins `tile.coord = (x, y, z)` in
that order, so the tile `(x, y, z) = (1, 2, 3)` yields
`<lock_dir>/<digest>-1-2-3.lck`, not the claimed
`<lock_dir>/<digest>-<z>-<x>-<y>.lck = <lock_dir>/<digest>-3-1-2.lck`. -/
theorem C3_coordinate_order_counterexample :
    FileCache.lock_filename (fun _ => "c1d2") "/tmp/cache" "/tmp/locks" (1, 2, 3)
        = "/tmp/locks/c1d2-1-2-3.lck" ∧
    specLockFilename "/tmp/locks" "c1d2" (1, 2, 3)
        = "/tmp/locks/c1d2-3-1-2.lck" ∧
    FileCache.lock_filename (fun _ => "c1d2") "/tmp/cache" "/tmp/locks" (1, 2, 3)
        ≠ specLockFilename "/tmp/locks" "c1d2" (1, 2, 3) := by
  refine ⟨by decide, by decide, by decide⟩

/-- Claim C3 as amended: both `FileCache.lock_filename` and
`TileSource.lock_filename` return
`<lock_dir>/<hex digest of the owner id>-<x>-<y>-<z>.lck` (coordinates in
`x-y-z` order, not `z-x-y`); two callers with the same owner digest and lock
dir compute identical names for the same tile; and within one owner the
name determines the tile: equal lock filenames force equal coordinates. -/
theorem C3_lock_filename_format (md5hex : String → String)
    (cache_dir idStr lock_dir : String) (c c' : Coord) :
    (FileCache.lock_filename md5hex cache_dir lock_dir c
        = pathJoin lock_dir (md5hex cache_dir ++ "-" ++ decRepr c.1 ++ "-"
            ++ decRepr c.2.1 ++ "-" ++ decRepr c.2.2 ++ ".lck")) ∧
    (TileSource.lock_filename md5hex idStr lock_dir c
        = pathJoin lock_dir (md5hex idStr ++ "-" ++ decRepr c.1 ++ "-"
            ++ decRepr c.2.1 ++ "-" ++ decRepr c.2.2 ++ ".lck")) ∧
    (md5hex cache_dir = md5hex idStr →
        FileCache.lock_filename md5hex cache_dir lock_dir c
          = TileSource.lock_filename md5hex idStr lock_dir c) ∧
    (FileCache.lock_filename md5hex cache_dir lock_dir c
        = FileCache.lock_filename md5hex cache_dir lock_dir c' → c = c') := by
  obtain ⟨x, y, z⟩ := c
  obtain ⟨x', y', z'⟩ := c'
  have hb : ∀ (d : String),
      d ++ "-" ++ coordDashJoin (x, y, z) ++ ".lck"
        = d ++ "-" ++ decRepr x ++ "-" ++ decRepr y ++ "-" ++ decRepr z
            ++ ".lck" := by
    intro d
    apply String.ext
    simp [coordDashJoin, String.data_append, List.append_assoc]
  refine ⟨?_, ?_, ?_, ?_⟩
  · unfold FileCache.lock_filename
    rw [hb]
  · unfold TileSource.lock_filename
    rw [hb]
  · intro h
    unfold FileCache.lock_filename TileSource.lock_filename
    rw [h]
  · intro h
    have h' : (FileCache.lock_filename md5hex cache_dir lock_dir (x, y, z)).data
        = (FileCache.lock_filename md5hex cache_dir lock_dir (x', y', z')).data :=
      congrArg String.data h
    unfold FileCache.lock_filename pathJoin at h'
    rw [data_mk, data_mk, lock_suffix_data, lock_suffix_data] at h'
    have hsuf := pathJoinL_inj_right
      (head?_append_cons (md5hex cache_dir).data '-' _ _) h'
    have hA := (List.cons.inj (List.append_cancel_left hsuf)).2
    obtain ⟨hx, hrest⟩ := sep_peel (decChars_ne_dash x) (decChars_ne_dash x') hA
    obtain ⟨hy, hrest2⟩ := sep_peel (decChars_ne_dash y) (decChars_ne_dash y') hrest
    obtain ⟨hz, -⟩ := sep_peel (decChars_ne_dot z) (decChars_ne_dot z') hrest2
    rw [decChars_inj hx, decChars_inj hy, decChars_inj hz]

/-- Claim C3, witness: the amended theorem applied at a concrete digest
function, lock dir and tile, discharging both hypotheses by `rfl`. -/
theorem C3_lock_filename_format_witness :
    (FileCache.lock_filename (fun _ => "ab12") "/c" "/l" (1, 2, 3)
        = TileSource.lock_filename (fun _ => "ab12") "srcid" "/l" (1, 2, 3)) ∧
    ((1, 2, 3) : Coord) = (1, 2, 3) :=
  ⟨(C3_lock_filename_format (fun _ => "ab12") "/c" "srcid" "/l"
      (1, 2, 3) (1, 2, 3)).2.2.1 rfl,
   (C3_lock_filename_format (fun _ => "ab12") "/c" "srcid" "/l"
      (1, 2, 3) (1, 2, 3)).2.2.2 rfl⟩

/-! ## Claim C4: `_ThreadedTileCreator` deduplication -/

theorem sortTilesGo_pairwise (f : Coord → String) :
    ∀ (ts uniq other : List Coord),
    List.Pairwise (fun a b => f a ≠ f b) uniq →
    List.Pairwise (fun a b => f a ≠ f b) (sortTilesGo f ts uniq other).1 := by
  intro ts
  induction ts with
  | nil =>
    intro uniq other h
    simpa [sortTilesGo] using h
  | cons t ts ih =>
    intro uniq other h
    simp only [sortTilesGo]
    by_cases hc : uniq.any (fun u => f u = f t)
    · rw [if_pos hc]
      exact ih _ _ h
    · rw [if_neg hc]
      apply ih
      rw [List.pairwise_append]
      refine ⟨h, by simp, ?_⟩
      intro a ha b hb
      simp only [List.mem_singleton] at hb
      subst hb
      intro hab
      apply hc
      rw [List.any_eq_true]
      exact ⟨a, ha, by simp [hab]⟩

theorem sortTilesGo_covers (f : Coord → String) :
    ∀ (ts uniq other : List Coord) (t : Coord),
    (t ∈ ts ∨ ∃ u ∈ uniq, f u = f t) →
    ∃ u ∈ (sortTilesGo f ts uniq other).1, f u = f t := by
  intro ts
  induction ts with
  | nil =>
    intro uniq other t h
    rcases h with h | h
    · simp at h
    · simpa [sortTilesGo] using h
  | cons s ts ih =>
    intro uniq other t h
    simp only [sortTilesGo]
    by_cases hc : uniq.any (fun u => f u = f s)
    · rw [if_pos hc]
      apply ih
      rcases h with h | h
      · rcases List.mem_cons.mp h with rfl | h2
        · right
          rw [List.any_eq_true] at hc
          obtain ⟨u, hu, hfu⟩ := hc
          exact ⟨u, hu, of_decide_eq_true hfu⟩
        · left
          exact h2
      · right
        exact h
    · rw [if_neg hc]
      apply ih
      rcases h with h | h
      · rcases List.mem_cons.mp h with rfl | h2
        · right
          exact ⟨t, List.mem_append_right _ (List.mem_singleton_self t), rfl⟩
        · left
          exact h2
      · right
        obtain ⟨u, hu, hfu⟩ := h
        exact ⟨u, List.mem_append_left _ hu, hfu⟩

theorem sortTilesGo_subset (f : Coord → String) :
    ∀ (ts uniq other : List Coord) (u : Coord),
    u ∈ (sortTilesGo f ts uniq other).1 → u ∈ uniq ∨ u ∈ ts := by
  intro ts
  induction ts with
  | nil =>
    intro uniq other u h
    left
    simpa [sortTilesGo] using h
  | cons s ts ih =>
    intro uniq other u h
    simp only [sortTilesGo] at h
    by_cases hc : uniq.any (fun x => f x = f s)
    · rw [if_pos hc] at h
      rcases ih _ _ _ h with h1 | h1
      · left
        exact h1
      · right
        simp [h1]
    · rw [if_neg hc] at h
      rcases ih _ _ _ h with h1 | h1
      · rcases List.mem_append.mp h1 with h2 | h2
        · left
          exact h2
        · right
          simp at h2
          simp [h2]
      · right
        simp [h1]

/-- Claim C4: `_ThreadedTileCreator.create_tiles` first deduplicates by
lock filename — the representatives have pairwise distinct lock filenames
(so `_create_tile` runs for at most one representative per distinct lock
filename), every input tile shares its lock filename with some
representative, every representative is an input tile — and the thread
pool is started exactly when the number of representatives differs from
one: a single representative is created inline. -/
theorem C4_threaded_creator_dedup (lockName : Coord → String)
    (createTile : Coord → Option (List Coord)) (tiles : List Coord) :
    List.Pairwise (fun a b => lockName a ≠ lockName b)
        (ThreadedTileCreator.sort_tiles lockName tiles).1 ∧
    (∀ t ∈ tiles, ∃ u ∈ (ThreadedTileCreator.sort_tiles lockName tiles).1,
        lockName u = lockName t) ∧
    (∀ u ∈ (ThreadedTileCreator.sort_tiles lockName tiles).1, u ∈ tiles) ∧
    ((ThreadedTileCreator.create_tiles lockName createTile tiles).2 = true
      ↔ (ThreadedTileCreator.sort_tiles lockName tiles).1.length ≠ 1) := by
  refine ⟨sortTilesGo_pairwise lockName tiles [] [] (by simp),
          fun t ht => sortTilesGo_covers lockName tiles [] [] t (Or.inl ht),
          fun u hu => ?_, ?_⟩
  · rcases sortTilesGo_subset lockName tiles [] [] u hu with h | h
    · simp at h
    · exact h
  · unfold ThreadedTileCreator.create_tiles
    rcases hs : (ThreadedTileCreator.sort_tiles lockName tiles).1 with - | ⟨a, - | ⟨b, l2⟩⟩ <;>
      simp

/-- Claim C4, witness: the theorem applied to two tiles sharing a lock
filename (same level-keyed lock): the second tile's lock filename is
covered by a representative. -/
theorem C4_threaded_creator_dedup_witness :
    ∃ u ∈ (ThreadedTileCreator.sort_tiles (fun c => decRepr c.2.2)
        [(0, 0, 0), (1, 0, 0)]).1,
      (fun c : Coord => decRepr c.2.2) u
        = (fun c : Coord => decRepr c.2.2) (1, 0, 0) :=
  (C4_threaded_creator_dedup (fun c => decRepr c.2.2) (fun _ => none)
    [(0, 0, 0), (1, 0, 0)]).2.1 (1, 0, 0) (by simp)

/-! ## Claim C7: `FileCache.tile_location` -/

theorem fmtChars_head_ne_slash (w n : Nat) :
    (fmtChars w n).head? ≠ some '/' := by
  cases hf : fmtChars w n with
  | nil => simp
  | cons c l =>
    have hc : c ∈ fmtChars w n := by
      rw [hf]
      exact List.mem_cons_self c l
    intro h
    exact fmtChars_ne_slash w n c hc (Option.some.inj h)

theorem fmtChars_append_head_ne_slash (w n : Nat) (l : List Char) :
    (fmtChars w n ++ l).head? ≠ some '/' := by
  obtain ⟨c, cs, hc⟩ := List.exists_cons_of_ne_nil (fmtChars_ne_nil w n)
  rw [hc, List.cons_append]
  intro h
  have hmem : c ∈ fmtChars w n := by
    rw [hc]
    exact List.mem_cons_self c cs
  exact fmtChars_ne_slash w n c hmem (Option.some.inj h)

theorem fmtChars_getLast_ne_slash (w n : Nat) :
    (fmtChars w n).getLast? ≠ some '/' := by
  rw [List.getLast?_eq_getLast_of_ne_nil (fmtChars_ne_nil w n)]
  intro h
  have hmem := List.getLast_mem (fmtChars_ne_nil w n)
  exact fmtChars_ne_slash w n _ hmem (Option.some.inj h)

theorem pathJoinL_plain {a b : List Char} (hb : b.head? ≠ some '/')
    (ha : a ≠ []) (hlast : a.getLast? ≠ some '/') :
    pathJoinL a b = a ++ '/' :: b := by
  unfold pathJoinL
  rw [if_neg hb, if_neg (not_or.mpr ⟨ha, hlast⟩)]

theorem pathJoinL_ne_nil {a b : List Char} (hb : b ≠ []) :
    pathJoinL a b ≠ [] := by
  unfold pathJoinL
  split
  · exact hb
  · split
    · intro h
      exact hb (List.append_eq_nil.mp h).2
    · simp

theorem getLast_cons_slash {p : List Char} (hp : p ≠ []) :
    ('/' :: p).getLast? = p.getLast? :=
  List.getLast?_append_of_ne_nil ['/'] hp

theorem pathJoinL_getLast {a b : List Char} (hb : b ≠ []) :
    (pathJoinL a b).getLast? = b.getLast? := by
  unfold pathJoinL
  split
  · rfl
  · split
    · exact List.getLast?_append_of_ne_nil a hb
    · rw [List.getLast?_append_cons]
      exact getLast_cons_slash hb

/-- `level_location` always has the form `P ++ "%02d" % z` for a prefix `P`
depending only on the cache dir (with or without an inserted separator). -/
theorem level_location_shape (cache_dir : String) :
    ∃ P : List Char, ∀ z : Nat,
      (FileCache.level_location cache_dir z).data = P ++ fmtChars 2 z := by
  by_cases h : cache_dir.data = [] ∨ cache_dir.data.getLast? = some '/'
  · refine ⟨cache_dir.data, fun z => ?_⟩
    show pathJoinL cache_dir.data (fmtInt 2 z).data = _
    rw [show (fmtInt 2 z).data = fmtChars 2 z from rfl]
    unfold pathJoinL
    rw [if_neg (fmtChars_head_ne_slash 2 z), if_pos h]
  · refine ⟨cache_dir.data ++ ['/'], fun z => ?_⟩
    show pathJoinL cache_dir.data (fmtInt 2 z).data = _
    rw [show (fmtInt 2 z).data = fmtChars 2 z from rfl]
    unfold pathJoinL
    rw [if_neg (fmtChars_head_ne_slash 2 z), if_neg h]
    simp

theorem level_location_data_ne_nil (cache_dir : String) (z : Nat) :
    (FileCache.level_location cache_dir z).data ≠ [] := by
  show pathJoinL cache_dir.data (fmtInt 2 z).data ≠ []
  apply pathJoinL_ne_nil
  rw [show (fmtInt 2 z).data = fmtChars 2 z from rfl]
  exact fmtChars_ne_nil 2 z

theorem level_location_getLast_ne_slash (cache_dir : String) (z : Nat) :
    (FileCache.level_location cache_dir z).data.getLast? ≠ some '/' := by
  show (pathJoinL cache_dir.data (fmtInt 2 z).data).getLast? ≠ some '/'
  rw [show (fmtInt 2 z).data = fmtChars 2 z from rfl,
      pathJoinL_getLast (fmtChars_ne_nil 2 z)]
  exact fmtChars_getLast_ne_slash 2 z

/-- The tile path in explicit right-nested normal form: level directory,
then six slash-separated components. -/
theorem tile_location_data (cache_dir file_ext : String) (x y z : Nat) :
    (FileCache.tile_location_path cache_dir file_ext (x, y, z)).data
      = (FileCache.level_location cache_dir z).data
          ++ '/' :: (fmtChars 3 (x / 1000000)
          ++ '/' :: (fmtChars 3 (x / 1000 % 1000)
          ++ '/' :: (fmtChars 3 (x % 1000)
          ++ '/' :: (fmtChars 3 (y / 1000000)
          ++ '/' :: (fmtChars 3 (y / 1000 % 1000)
          ++ '/' :: (fmtChars 3 (y % 1000) ++ '.' :: file_ext.data)))))) := by
  show ([fmtChars 3 (x / 1000000), fmtChars 3 (x / 1000 % 1000),
      fmtChars 3 (x % 1000), fmtChars 3 (y / 1000000),
      fmtChars 3 (y / 1000 % 1000),
      fmtChars 3 (y % 1000) ++ '.' :: file_ext.data].foldl pathJoinL
        (FileCache.level_location cache_dir z).data) = _
  simp only [List.foldl_cons, List.foldl_nil]
  set A0 := (FileCache.level_location cache_dir z).data with hA0
  have h0 : A0 ≠ [] := level_location_data_ne_nil cache_dir z
  have h0l : A0.getLast? ≠ some '/' := level_location_getLast_ne_slash cache_dir z
  rw [pathJoinL_plain (fmtChars_head_ne_slash 3 (x / 1000000)) h0 h0l]
  set A1 := A0 ++ '/' :: fmtChars 3 (x / 1000000) with hA1
  have h1 : A1 ≠ [] := by
    rw [hA1]
    simp
  have h1l : A1.getLast? ≠ some '/' := by
    rw [hA1, List.getLast?_append_cons, getLast_cons_slash (fmtChars_ne_nil 3 _)]
    exact fmtChars_getLast_ne_slash 3 _
  rw [pathJoinL_plain (fmtChars_head_ne_slash 3 (x / 1000 % 1000)) h1 h1l]
  set A2 := A1 ++ '/' :: fmtChars 3 (x / 1000 % 1000) with hA2
  have h2 : A2 ≠ [] := by
    rw [hA2]
    simp
  have h2l : A2.getLast? ≠ some '/' := by
    rw [hA2, List.getLast?_append_cons, getLast_cons_slash (fmtChars_ne_nil 3 _)]
    exact fmtChars_getLast_ne_slash 3 _
  rw [pathJoinL_plain (fmtChars_head_ne_slash 3 (x % 1000)) h2 h2l]
  set A3 := A2 ++ '/' :: fmtChars 3 (x % 1000) with hA3
  have h3 : A3 ≠ [] := by
    rw [hA3]
    simp
  have h3l : A3.getLast? ≠ some '/' := by
    rw [hA3, List.getLast?_append_cons, getLast_cons_slash (fmtChars_ne_nil 3 _)]
    exact fmtChars_getLast_ne_slash 3 _
  rw [pathJoinL_plain (fmtChars_head_ne_slash 3 (y / 1000000)) h3 h3l]
  set A4 := A3 ++ '/' :: fmtChars 3 (y / 1000000) with hA4
  have h4 : A4 ≠ [] := by
    rw [hA4]
    simp
  have h4l : A4.getLast? ≠ some '/' := by
    rw [hA4, List.getLast?_append_cons, getLast_cons_slash (fmtChars_ne_nil 3 _)]
    exact fmtChars_getLast_ne_slash 3 _
  rw [pathJoinL_plain (fmtChars_head_ne_slash 3 (y / 1000 % 1000)) h4 h4l]
  set A5 := A4 ++ '/' :: fmtChars 3 (y / 1000 % 1000) with hA5
  have h5 : A5 ≠ [] := by
    rw [hA5]
    simp
  have h5l : A5.getLast? ≠ some '/' := by
    rw [hA5, List.getLast?_append_cons, getLast_cons_slash (fmtChars_ne_nil 3 _)]
    exact fmtChars_getLast_ne_slash 3 _
  rw [pathJoinL_plain (fmtChars_append_head_ne_slash 3 (y % 1000) _) h5 h5l]
  rw [hA5, hA4, hA3, hA2, hA1]
  simp [List.append_assoc]

/-- Claim C7: `tile_location` implements the claimed layout — the docstring
example `(3, 4, 2) ↦ /tmp/cache/02/000/000/003/000/000/004.png` with its
2-digit level and two triples of zero-padded 3-digit groups — and the
mapping is injective: equal paths (same cache dir and extension) force
equal `(x, y, z)`. -/
theorem C7_tile_location_injective (cache_dir file_ext : String)
    (c c' : Coord)
    (h : FileCache.tile_location_path cache_dir file_ext c
       = FileCache.tile_location_path cache_dir file_ext c') :
    c = c' ∧
    FileCache.tile_location_path "/tmp/cache" "png" (3, 4, 2)
      = "/tmp/cache/02/000/000/003/000/000/004.png" := by
  refine ⟨?_, by decide⟩
  obtain ⟨x, y, z⟩ := c
  obtain ⟨x', y', z'⟩ := c'
  have hd := congrArg String.data h
  rw [tile_location_data, tile_location_data] at hd
  obtain ⟨P, hP⟩ := level_location_shape cache_dir
  rw [hP z, hP z', List.append_assoc, List.append_assoc] at hd
  have hd2 := List.append_cancel_left hd
  obtain ⟨hz, hd3⟩ := sep_peel (fmtChars_ne_slash 2 z) (fmtChars_ne_slash 2 z') hd2
  obtain ⟨hx1, hd4⟩ := sep_peel (fmtChars_ne_slash 3 _) (fmtChars_ne_slash 3 _) hd3
  obtain ⟨hx2, hd5⟩ := sep_peel (fmtChars_ne_slash 3 _) (fmtChars_ne_slash 3 _) hd4
  obtain ⟨hx3, hd6⟩ := sep_peel (fmtChars_ne_slash 3 _) (fmtChars_ne_slash 3 _) hd5
  obtain ⟨hy1, hd7⟩ := sep_peel (fmtChars_ne_slash 3 _) (fmtChars_ne_slash 3 _) hd6
  obtain ⟨hy2, hd8⟩ := sep_peel (fmtChars_ne_slash 3 _) (fmtChars_ne_slash 3 _) hd7
  obtain ⟨hy3, -⟩ := sep_peel (fmtChars_ne_dot 3 _) (fmtChars_ne_dot 3 _) hd8
  have ez : z = z' := fmtChars_inj hz
  have ex1 : x / 1000000 = x' / 1000000 := fmtChars_inj hx1
  have ex2 : x / 1000 % 1000 = x' / 1000 % 1000 := fmtChars_inj hx2
  have ex3 : x % 1000 = x' % 1000 := fmtChars_inj hx3
  have ey1 : y / 1000000 = y' / 1000000 := fmtChars_inj hy1
  have ey2 : y / 1000 % 1000 = y' / 1000 % 1000 := fmtChars_inj hy2
  have ey3 : y % 1000 = y' % 1000 := fmtChars_inj hy3
  have ex : x = x' := by omega
  have ey : y = y' := by omega
  rw [ex, ey, ez]

/-- Claim C7, witness: the injectivity theorem applied to equal inputs,
discharging its hypothesis by `rfl`. -/
theorem C7_tile_location_injective_witness :
    ((3, 4, 2) : Coord) = (3, 4, 2) ∧
    FileCache.tile_location_path "/tmp/cache" "png" (3, 4, 2)
      = "/tmp/cache/02/000/000/003/000/000/004.png" :=
  C7_tile_location_injective "/tmp/cache" "png" (3, 4, 2) (3, 4, 2) rfl

/-! ## Claim C9: `TiledSource.get` -/

/-- Claim C9: under the natural grid invariant that `get_affected_tiles`
returns as many tile coords as grid cells, `TiledSource.get` raises
`InvalidSourceQuery` if and only if the query size differs from the grid's
tile size, or the query srs differs from the grid's srs, or the affected
grid is not 1×1; and when none of these hold it returns the client's tile
for the single affected coordinate. -/
theorem C9_tiled_source_get {β γ : Type} (tile_size : Nat × Nat) (srs : Nat)
    (affected : β → Nat × Nat → β × (Nat × Nat) × List Coord)
    (get_tile : Coord → γ) (query : TiledQuery β)
    (hlen : (affected query.bbox query.size).2.2.length
          = (affected query.bbox query.size).2.1.1
            * (affected query.bbox query.size).2.1.2) :
    ((∃ msg, TiledSource.get tile_size srs affected get_tile query
        = Except.error (TiledGetErr.invalidSourceQuery msg))
      ↔ (tile_size ≠ query.size ∨ srs ≠ query.srs
          ∨ (affected query.bbox query.size).2.1 ≠ (1, 1))) ∧
    (tile_size = query.size → srs = query.srs →
      (affected query.bbox query.size).2.1 = (1, 1) →
      ∃ t, (affected query.bbox query.size).2.2 = [t] ∧
        TiledSource.get tile_size srs affected get_tile query
          = Except.ok (get_tile t)) := by
  by_cases h1 : tile_size = query.size
  · by_cases h2 : srs = query.srs
    · by_cases h3 : (affected query.bbox query.size).2.1 = (1, 1)
      · have hone : (affected query.bbox query.size).2.2.length = 1 := by
          rw [hlen, h3]
          rfl
        obtain ⟨t, ht⟩ := List.length_eq_one.mp hone
        have hget : TiledSource.get tile_size srs affected get_tile query
            = Except.ok (get_tile t) := by
          unfold TiledSource.get
          rw [if_neg (not_not_intro h1), if_neg (not_not_intro h2)]
          simp only
          rw [if_neg (not_not_intro h3), ht]
        refine ⟨?_, fun _ _ _ => ⟨t, ht, hget⟩⟩
        constructor
        · rintro ⟨msg, hmsg⟩
          rw [hget] at hmsg
          cases hmsg
        · intro hcond
          rcases hcond with h | h | h
          · exact absurd h1 h
          · exact absurd h2 h
          · exact absurd h3 h
      · have hget : TiledSource.get tile_size srs affected get_tile query
            = Except.error (TiledGetErr.invalidSourceQuery
                (some "bbox does not align to tile")) := by
          unfold TiledSource.get
          rw [if_neg (not_not_intro h1), if_neg (not_not_intro h2)]
          simp only
          rw [if_pos h3]
        refine ⟨⟨fun _ => Or.inr (Or.inr h3), fun _ => ⟨_, hget⟩⟩,
                fun _ _ h3' => absurd h3' h3⟩
    · have hget : TiledSource.get tile_size srs affected get_tile query
          = Except.error (TiledGetErr.invalidSourceQuery none) := by
        unfold TiledSource.get
        rw [if_neg (not_not_intro h1), if_pos h2]
      refine ⟨⟨fun _ => Or.inr (Or.inl h2), fun _ => ⟨_, hget⟩⟩,
              fun _ h2' => absurd h2' h2⟩
  · have hget : TiledSource.get tile_size srs affected get_tile query
        = Except.error (TiledGetErr.invalidSourceQuery none) := by
      unfold TiledSource.get
      rw [if_pos h1]
    refine ⟨⟨fun _ => Or.inl h1, fun _ => ⟨_, hget⟩⟩,
            fun h1' => absurd h1' h1⟩

/-- Claim C9, witness: the theorem applied to an aligned concrete query on
a grid whose `get_affected_tiles` reports a 1×1 grid with one coordinate,
all hypotheses discharged by `rfl`. -/
theorem C9_tiled_source_get_witness :
    ∃ t, ((fun (_ : Nat) (_ : Nat × Nat) =>
            ((0 : Nat), ((1 : Nat), (1 : Nat)), [((0, 0, 0) : Coord)]))
          (0 : Nat) ((256 : Nat), (256 : Nat))).2.2 = [t] ∧
      TiledSource.get (256, 256) 4326
          (fun _ _ => (0, (1, 1), [(0, 0, 0)])) (fun c => c)
          { bbox := 0, size := (256, 256), srs := 4326 }
        = Except.ok ((fun c => c) t) :=
  (C9_tiled_source_get (256, 256) 4326 (fun _ _ => (0, (1, 1), [(0, 0, 0)]))
      (fun c => c) { bbox := 0, size := (256, 256), srs := 4326 } rfl).2
    rfl rfl rfl

/-! ## Claim C6: `FileCache.store` -/

theorem store_at_nil_filters (imgLen : ImgSrc → Nat) (now : Nat) (fs : FS)
    (t : Tile) (location : String) (s : ImgSrc) (hs : t.source = some s) :
    FileCache.store_at [] imgLen now fs t location
      = some ((if fs.islink location then fs.unlink location
               else fs).writeFile location,
              { t with size := some (imgLen s), timestamp := some now,
                       stored := true }) := by
  simp only [FileCache.store_at, List.foldl_nil, hs]

theorem not_missing_of_source {t : Tile} (c : Coord) (s : ImgSrc)
    (hc : t.coord = some c) (hs : t.source = some s) :
    t.is_missing = false := by
  unfold Tile.is_missing
  rw [hc, hs]
  rfl

theorem is_cached_not_missing (fc : FileCacheT) (fs : FS) {t : Tile}
    (h : t.is_missing = false) :
    FileCache.is_cached fc fs t = some (true, t) := by
  simp [FileCache.is_cached, h]

theorem load_not_missing (fc : FileCacheT) (fs : FS) {t : Tile}
    (h : t.is_missing = false) :
    FileCache.load fc fs t = some (true, t) := by
  simp [FileCache.load, h]

/-- Claim C6, counterexample: with `link_single_color_images` enabled, a
monochrome tile whose shared color file already exists on disk is turned
into a symlink without ever calling `_store` on the tile, so after
`store(tile)` returns, `tile.stored` is still `False` — the claim says it
is always true. -/
theorem C6_stored_flag_counterexample :
    Option.map (fun r => r.2.stored)
      (FileCache.store ⟨"/c", "png", true⟩
        [] (fun _ => some [255, 0, 0]) (fun _ => 1) 0
        ⟨["/c/single_color_tiles/ff0000.png"], []⟩
        ⟨some (0, 0, 0), some (ImgSrc.mem 1), none, false, none, none⟩)
      = some false := by
  decide

/-- Claim C6 as amended: for a tile with non-null coord, a source and
`stored = False` (no pre-store filters configured), `store` succeeds, the
tile keeps its source, `is_cached` is true afterwards and `load` is a
no-op that leaves the source populated; `tile.stored` becomes true in
every case except one: when `link_single_color_images` is enabled, the
image is monochrome and the shared color file already exists, the tile is
merely symlinked and its `stored` flag stays false.  Calling `store` on a
tile whose `stored` flag is already true is a no-op that changes neither
the tile nor the filesystem. -/
theorem C6_store_effects (fc : FileCacheT)
    (single_color : ImgSrc → Option (List Nat)) (imgLen : ImgSrc → Nat)
    (now : Nat) (fs : FS) (t : Tile) (c : Coord) (s : ImgSrc)
    (hc : t.coord = some c) (hs : t.source = some s)
    (hst : t.stored = false) :
    (∃ fs' t',
      FileCache.store fc [] single_color imgLen now fs t = some (fs', t') ∧
      t'.source = some s ∧
      FileCache.is_cached fc fs' t' = some (true, t') ∧
      FileCache.load fc fs' t' = some (true, t') ∧
      (t'.stored = true ↔
        ¬(fc.link_single_color_images = true ∧
          ∃ color, single_color s = some color ∧
            fs.pexists (FileCache.single_color_tile_location fc color)
              = true))) ∧
    (∀ (fs0 : FS) (t0 : Tile), t0.stored = true →
      FileCache.store fc [] single_color imgLen now fs0 t0
        = some (fs0, t0)) := by
  constructor
  · -- the location computation succeeds and preserves coord and source
    obtain ⟨loc, t1, hloc, hsrc1, hcoord1, hst1⟩ :
        ∃ loc t1, FileCache.tile_location fc t = some (loc, t1) ∧
          t1.source = some s ∧ t1.coord = some c ∧ t1.stored = false := by
      unfold FileCache.tile_location
      cases hl : t.location with
      | some l => exact ⟨l, t, rfl, hs, hc, hst⟩
      | none =>
        rw [hc]
        exact ⟨_, _, rfl, hs, rfl, hst⟩
    cases hli : fc.link_single_color_images with
    | false =>
      have hstore : FileCache.store fc [] single_color imgLen now fs t
          = some ((if fs.islink loc then fs.unlink loc else fs).writeFile loc,
                  { t1 with size := some (imgLen s), timestamp := some now,
                            stored := true }) := by
        simp [FileCache.store, hst, hloc, hli,
              store_at_nil_filters imgLen now fs t1 loc s hsrc1]
      refine ⟨_, _, hstore, hsrc1, ?_, ?_, ?_⟩
      · exact is_cached_not_missing fc _ (not_missing_of_source c s hcoord1 hsrc1)
      · exact load_not_missing fc _ (not_missing_of_source c s hcoord1 hsrc1)
      · simp [hli]
    | true =>
      cases hcol : single_color s with
      | none =>
        have hstore : FileCache.store fc [] single_color imgLen now fs t
            = some ((if fs.islink loc then fs.unlink loc else fs).writeFile loc,
                    { t1 with size := some (imgLen s), timestamp := some now,
                              stored := true }) := by
          simp [FileCache.store, hst, hloc, hli, hsrc1, hcol,
                store_at_nil_filters imgLen now fs t1 loc s hsrc1]
        refine ⟨_, _, hstore, hsrc1, ?_, ?_, ?_⟩
        · exact is_cached_not_missing fc _ (not_missing_of_source c s hcoord1 hsrc1)
        · exact load_not_missing fc _ (not_missing_of_source c s hcoord1 hsrc1)
        · simp [hli, hcol]
      | some color =>
        cases hpe : fs.pexists (FileCache.single_color_tile_location fc color) with
        | true =>
          have hstore : FileCache.store fc [] single_color imgLen now fs t
              = some (((if fs.pexists loc || fs.islink loc then fs.unlink loc
                        else fs).symlink
                        (FileCache.single_color_tile_location fc color) loc),
                      t1) := by
            simp [FileCache.store, hst, hloc, hli, hsrc1, hcol, hpe]
          refine ⟨_, _, hstore, hsrc1, ?_, ?_, ?_⟩
          · exact is_cached_not_missing fc _ (not_missing_of_source c s hcoord1 hsrc1)
          · exact load_not_missing fc _ (not_missing_of_source c s hcoord1 hsrc1)
          · rw [hst1]
            refine ⟨fun hx => absurd hx (by simp),
                    fun hn => absurd ⟨rfl, color, rfl, hpe⟩ hn⟩
        | false =>
          have hstore : FileCache.store fc [] single_color imgLen now fs t
              = some
                  ((if ((if fs.islink (FileCache.single_color_tile_location fc color)
                          then fs.unlink (FileCache.single_color_tile_location fc color)
                          else fs).writeFile
                          (FileCache.single_color_tile_location fc color)).pexists loc
                        || ((if fs.islink (FileCache.single_color_tile_location fc color)
                          then fs.unlink (FileCache.single_color_tile_location fc color)
                          else fs).writeFile
                          (FileCache.single_color_tile_location fc color)).islink loc
                    then ((if fs.islink (FileCache.single_color_tile_location fc color)
                          then fs.unlink (FileCache.single_color_tile_location fc color)
                          else fs).writeFile
                          (FileCache.single_color_tile_location fc color)).unlink loc
                    else ((if fs.islink (FileCache.single_color_tile_location fc color)
                          then fs.unlink (FileCache.single_color_tile_location fc color)
                          else fs).writeFile
                          (FileCache.single_color_tile_location fc color))).symlink
                    (FileCache.single_color_tile_location fc color) loc,
                  { t1 with size := some (imgLen s), timestamp := some now,
                            stored := true }) := by
            simp [FileCache.store, hst, hloc, hli, hsrc1, hcol, hpe,
                  store_at_nil_filters imgLen now fs t1
                    (FileCache.single_color_tile_location fc color) s hsrc1]
          refine ⟨_, _, hstore, hsrc1, ?_, ?_, ?_⟩
          · exact is_cached_not_missing fc _ (not_missing_of_source c s hcoord1 hsrc1)
          · exact load_not_missing fc _ (not_missing_of_source c s hcoord1 hsrc1)
          · simp [hli, hcol, hpe]
  · intro fs0 t0 h0
    simp [FileCache.store, h0]

/-- Claim C6, witness: the amended theorem at a concrete monochrome-free
configuration, all hypotheses discharged at a concrete tile. -/
theorem C6_store_effects_witness :
    ∃ fs' t',
      FileCache.store ⟨"/c", "png", false⟩
          [] (fun _ => none) (fun _ => 7) 5 ⟨[], []⟩
          ⟨some (1, 2, 0), some (ImgSrc.mem 3), none, false, none, none⟩
        = some (fs', t') ∧
      t'.source = some (ImgSrc.mem 3) ∧
      FileCache.is_cached ⟨"/c", "png", false⟩ fs' t' = some (true, t') ∧
      FileCache.load ⟨"/c", "png", false⟩ fs' t' = some (true, t') ∧
      (t'.stored = true ↔
        ¬((⟨"/c", "png", false⟩ : FileCacheT).link_single_color_images
              = true ∧
          ∃ color, (fun _ : ImgSrc => (none : Option (List Nat)))
              (ImgSrc.mem 3) = some color ∧
            FS.pexists ⟨[], []⟩
              (FileCache.single_color_tile_location ⟨"/c", "png", false⟩
                color) = true)) :=
  (C6_store_effects ⟨"/c", "png", false⟩
    (fun _ => none) (fun _ => 7) 5 ⟨[], []⟩
    ⟨some (1, 2, 0), some (ImgSrc.mem 3), none, false, none, none⟩
    (1, 2, 0) (ImgSrc.mem 3) rfl rfl rfl).1

/-! ## Claim C8: upstream error mapping in `TileManager` -/

/-- Claim C8: if the upstream source raises `HTTPClientError` during
`_create_tile` or `_create_meta_tile` (cache hit rechecked false under the
lock), the error is re-raised as `TileSourceError` carrying the same first
message, nothing is stored (`stored` and `cache` are unchanged in the
resulting trace) and the tile lock is released; any other exception
propagates unchanged, with the same no-store/lock-released guarantees. -/
theorem C8_http_error_mapping {β : Type} (env : TMEnv β) (st : TMTrace β)
    (c : Coord) (m n : String) (mbbox : β)
    (tiles : List (Coord × (Nat × Nat))) :
    (c ∉ st.cache →
      env.sourceGet (env.tileQuery c)
          = Except.error (UpstreamErr.httpClientError m) →
      TileManager.create_tile env st c
        = (Except.error (TMErr.tileSourceError m),
           { st with locked := st.locked ++ [c],
                     fetches := st.fetches ++ [env.tileQuery c],
                     released := st.released ++ [c] })) ∧
    (c ∉ st.cache →
      env.sourceGet (env.tileQuery c) = Except.error (UpstreamErr.otherExc n) →
      TileManager.create_tile env st c
        = (Except.error (TMErr.otherExc n),
           { st with locked := st.locked ++ [c],
                     fetches := st.fetches ++ [env.tileQuery c],
                     released := st.released ++ [c] })) ∧
    (c ∉ st.cache →
      env.sourceGet (env.metaQuery mbbox c.2.2)
          = Except.error (UpstreamErr.httpClientError m) →
      TileManager.create_meta_tile env st c mbbox tiles
        = (Except.error (TMErr.tileSourceError m),
           { st with locked := st.locked ++ [c],
                     fetches := st.fetches ++ [env.metaQuery mbbox c.2.2],
                     released := st.released ++ [c] })) ∧
    (c ∉ st.cache →
      env.sourceGet (env.metaQuery mbbox c.2.2)
          = Except.error (UpstreamErr.otherExc n) →
      TileManager.create_meta_tile env st c mbbox tiles
        = (Except.error (TMErr.otherExc n),
           { st with locked := st.locked ++ [c],
                     fetches := st.fetches ++ [env.metaQuery mbbox c.2.2],
                     released := st.released ++ [c] })) := by
  refine ⟨fun h1 h2 => ?_, fun h1 h2 => ?_, fun h1 h2 => ?_, fun h1 h2 => ?_⟩ <;>
    simp [TileManager.create_tile, TileManager.create_meta_tile, h1, h2]

/-- Claim C8, witness: a concrete upstream that always raises
`HTTPClientError "boom"` makes `_create_tile` surface
`TileSourceError "boom"` with the lock released and nothing stored. -/
theorem C8_http_error_mapping_witness :
    TileManager.create_tile
        (⟨4326, 1, (256, 256), (fun c => c.1), (fun c => c.2.2),
          (fun c => [(c, (0, 0))]), (fun _ => (512, 512)),
          (fun _ => Except.error (UpstreamErr.httpClientError "boom")),
          (fun _ _ _ => 0)⟩ : TMEnv Nat)
        ⟨[], [], [], [], []⟩ (0, 0, 0)
      = (Except.error (TMErr.tileSourceError "boom"),
         { (⟨[], [], [], [], []⟩ : TMTrace Nat) with
             locked := [] ++ [(0, 0, 0)],
             fetches := [] ++ [TMEnv.tileQuery
               (⟨4326, 1, (256, 256), (fun c => c.1), (fun c => c.2.2),
                 (fun c => [(c, (0, 0))]), (fun _ => (512, 512)),
                 (fun _ => Except.error (UpstreamErr.httpClientError "boom")),
                 (fun _ _ _ => 0)⟩ : TMEnv Nat) (0, 0, 0)],
             released := [] ++ [(0, 0, 0)] }) :=
  (C8_http_error_mapping _ _ (0, 0, 0) "boom" "x" 0 []).1 (by simp) rfl

/-! ## Claim C5: meta-tile batching in `TileManager._create_tiles` -/

theorem bucket_meta_extends {β : Type} [DecidableEq β] (env : TMEnv β) :
    ∀ (ts : List Coord) (acc : List (Coord × β)) (seen : List β),
    ∃ rest, TileManager.bucket_meta env ts acc seen = acc ++ rest := by
  intro ts
  induction ts with
  | nil =>
    intro acc seen
    exact ⟨[], by simp [TileManager.bucket_meta]⟩
  | cons c cs ih =>
    intro acc seen
    simp only [TileManager.bucket_meta]
    by_cases h : env.meta_bbox c ∈ seen
    · rw [if_pos h]
      exact ih acc seen
    · rw [if_neg h]
      obtain ⟨rest, hr⟩ := ih (acc ++ [(c, env.meta_bbox c)]) (env.meta_bbox c :: seen)
      exact ⟨(c, env.meta_bbox c) :: rest, by rw [hr]; simp⟩

theorem bucket_meta_spec {β : Type} [DecidableEq β] (env : TMEnv β) :
    ∀ (ts : List Coord) (acc : List (Coord × β)) (seen : List β),
    (∀ b, b ∈ seen ↔ b ∈ acc.map Prod.snd) →
    List.Pairwise (fun p q => p.2 ≠ q.2) acc →
    List.Pairwise (fun p q => p.2 ≠ q.2)
        (TileManager.bucket_meta env ts acc seen) ∧
    (∀ c ∈ ts, ∃ p ∈ TileManager.bucket_meta env ts acc seen,
        p.2 = env.meta_bbox c) ∧
    (∀ p ∈ TileManager.bucket_meta env ts acc seen,
        p ∈ acc ∨ (p.1 ∈ ts ∧ p.2 = env.meta_bbox p.1)) := by
  intro ts
  induction ts with
  | nil =>
    intro acc seen _hseen hpw
    refine ⟨by simpa [TileManager.bucket_meta] using hpw, by simp, ?_⟩
    intro p hp
    left
    simpa [TileManager.bucket_meta] using hp
  | cons c cs ih =>
    intro acc seen hseen hpw
    simp only [TileManager.bucket_meta]
    by_cases h : env.meta_bbox c ∈ seen
    · rw [if_pos h]
      obtain ⟨hpw', hcov', hsub'⟩ := ih acc seen hseen hpw
      refine ⟨hpw', ?_, ?_⟩
      · intro d hd
        rcases List.mem_cons.mp hd with rfl | hd2
        · obtain ⟨p, hpacc, hps⟩ := List.mem_map.mp ((hseen _).mp h)
          obtain ⟨rest, hr⟩ := bucket_meta_extends env cs acc seen
          refine ⟨p, ?_, hps⟩
          rw [hr]
          exact List.mem_append_left _ hpacc
        · exact hcov' d hd2
      · intro p hp
        rcases hsub' p hp with h1 | h1
        · left
          exact h1
        · right
          exact ⟨List.mem_cons_of_mem _ h1.1, h1.2⟩
    · rw [if_neg h]
      have hseen' : ∀ b, b ∈ env.meta_bbox c :: seen ↔
          b ∈ (acc ++ [(c, env.meta_bbox c)]).map Prod.snd := by
        intro b
        rw [List.mem_cons, List.map_append, List.mem_append, ← hseen b]
        simp only [List.map_cons, List.map_nil, List.mem_singleton]
        exact or_comm
      have hpw' : List.Pairwise (fun p q => p.2 ≠ q.2)
          (acc ++ [(c, env.meta_bbox c)]) := by
        rw [List.pairwise_append]
        refine ⟨hpw, by simp, ?_⟩
        intro p hpacc q hq
        simp only [List.mem_singleton] at hq
        subst hq
        intro heq
        exact h ((hseen _).mpr (List.mem_map.mpr ⟨p, hpacc, heq⟩))
      obtain ⟨hpwr, hcovr, hsubr⟩ := ih _ _ hseen' hpw'
      refine ⟨hpwr, ?_, ?_⟩
      · intro d hd
        rcases List.mem_cons.mp hd with hd1 | hd2
        · obtain ⟨rest, hr⟩ :=
            bucket_meta_extends env cs (acc ++ [(c, env.meta_bbox c)])
              (env.meta_bbox c :: seen)
          refine ⟨(c, env.meta_bbox c), ?_, by rw [hd1]⟩
          rw [hr]
          exact List.mem_append_left _ (List.mem_append_right _ (by simp))
        · exact hcovr d hd2
      · intro p hp
        rcases hsubr p hp with h1 | h1
        · rcases List.mem_append.mp h1 with h2 | h2
          · left
            exact h2
          · right
            simp only [List.mem_singleton] at h2
            subst h2
            exact ⟨by simp, rfl⟩
        · right
          exact ⟨List.mem_cons_of_mem _ h1.1, h1.2⟩

theorem create_each_run {β : Type} (env : TMEnv β) :
    ∀ (tiles : List Coord) (st : TMTrace β),
    (∀ q, ∃ i, env.sourceGet q = Except.ok i) →
    (∀ c ∈ tiles, c ∉ st.cache) →
    tiles.Nodup →
    TileManager.create_each env tiles st
      = (Except.ok tiles,
         { st with cache := st.cache ++ tiles,
                   fetches := st.fetches ++ tiles.map env.tileQuery,
                   stored := st.stored ++ tiles,
                   locked := st.locked ++ tiles,
                   released := st.released ++ tiles }) := by
  intro tiles
  induction tiles with
  | nil =>
    intro st hok hfresh hnd
    simp [TileManager.create_each]
  | cons c cs ih =>
    intro st hok hfresh hnd
    obtain ⟨hcnotin, hnd'⟩ := List.nodup_cons.mp hnd
    obtain ⟨i, hi⟩ := hok (env.tileQuery c)
    have hc : c ∉ st.cache := hfresh c (by simp)
    have hct : TileManager.create_tile env st c
        = (Except.ok [c],
           { st with fetches := st.fetches ++ [env.tileQuery c],
                     stored := st.stored ++ [c],
                     cache := st.cache ++ [c],
                     locked := st.locked ++ [c],
                     released := st.released ++ [c] }) := by
      simp [TileManager.create_tile, hc, hi]
    have hfresh' : ∀ d ∈ cs, d ∉ st.cache ++ [c] := by
      intro d hd
      rw [List.mem_append]
      rintro (hda | hdc)
      · exact hfresh d (by simp [hd]) hda
      · simp only [List.mem_singleton] at hdc
        subst hdc
        exact hcnotin hd
    simp only [TileManager.create_each, hct]
    rw [ih _ hok hfresh' hnd']
    simp [List.append_assoc]

theorem create_meta_tiles_run {β : Type} (env : TMEnv β) :
    ∀ (buckets : List (Coord × β)) (st : TMTrace β),
    (∀ q, ∃ i, env.sourceGet q = Except.ok i) →
    (∀ p ∈ buckets, env.meta_tiles p.1 ≠ []) →
    (∀ p ∈ buckets, env.metaMain p.1 ∉ st.cache) →
    List.Pairwise (fun p q =>
        env.metaMain p.1 ∉ (env.meta_tiles q.1).map Prod.fst ∧
        env.metaMain q.1 ∉ (env.meta_tiles p.1).map Prod.fst) buckets →
    TileManager.create_meta_tiles env buckets st
      = (Except.ok
           ((buckets.map (fun p => (env.meta_tiles p.1).map Prod.fst)).flatten),
         { st with
             cache := st.cache
               ++ (buckets.map (fun p => (env.meta_tiles p.1).map Prod.fst)).flatten,
             fetches := st.fetches
               ++ buckets.map (fun p => env.metaQuery p.2 (env.metaMain p.1).2.2),
             stored := st.stored
               ++ (buckets.map (fun p => (env.meta_tiles p.1).map Prod.fst)).flatten,
             locked := st.locked ++ buckets.map (fun p => env.metaMain p.1),
             released := st.released
               ++ buckets.map (fun p => env.metaMain p.1) }) := by
  intro buckets
  induction buckets with
  | nil =>
    intro st hok hne hmain hdisj
    simp [TileManager.create_meta_tiles]
  | cons b rest ih =>
    intro st hok hne hmain hdisj
    obtain ⟨repC, mbbox⟩ := b
    obtain ⟨cp0, more, hm⟩ :=
      List.exists_cons_of_ne_nil (hne (repC, mbbox) (by simp))
    obtain ⟨c0, p0⟩ := cp0
    have hmainC : env.metaMain repC = c0 := by
      unfold TMEnv.metaMain
      rw [hm]
      rfl
    have hc0 : c0 ∉ st.cache := by
      have hmm := hmain (repC, mbbox) (by simp)
      rwa [show ((repC, mbbox) : Coord × β).1 = repC from rfl, hmainC] at hmm
    obtain ⟨i, hi⟩ := hok (env.metaQuery mbbox c0.2.2)
    have hcm : TileManager.create_meta_tile env st c0 mbbox ((c0, p0) :: more)
        = (Except.ok (((c0, p0) :: more).map Prod.fst),
           { st with fetches := st.fetches ++ [env.metaQuery mbbox c0.2.2],
                     stored := st.stored ++ ((c0, p0) :: more).map Prod.fst,
                     cache := st.cache ++ ((c0, p0) :: more).map Prod.fst,
                     locked := st.locked ++ [c0],
                     released := st.released ++ [c0] }) := by
      simp [TileManager.create_meta_tile, hc0, hi]
    have hpc := List.pairwise_cons.mp hdisj
    have hne' : ∀ p ∈ rest, env.meta_tiles p.1 ≠ [] :=
      fun p hp => hne p (by simp [hp])
    have hmain' : ∀ p ∈ rest,
        env.metaMain p.1 ∉ st.cache ++ ((c0, p0) :: more).map Prod.fst := by
      intro p hp
      rw [List.mem_append]
      push_neg
      refine ⟨hmain p (by simp [hp]), ?_⟩
      have hrel := (hpc.1 p hp).2
      rwa [show ((repC, mbbox) : Coord × β).1 = repC from rfl, hm] at hrel
    simp only [TileManager.create_meta_tiles, hm, hcm]
    rw [ih _ hok hne' hmain' hpc.2]
    simp [hm, hmainC, List.append_assoc]

/-- Claim C5: with a meta-grid, `_create_tiles` buckets the missing tiles
by `meta_bbox` — the buckets carry pairwise distinct meta bboxes, cover
every tile's meta bbox, and are first occurrences from the input — and
(for an upstream that succeeds, meta listings that are nonempty, main
tiles not yet cached and meta tiles that do not contain another bucket's
main tile) issues exactly one upstream fetch per distinct meta bbox,
splitting and storing every constituent tile of every fetched meta tile;
a meta tile whose main tile is already cached issues no fetch and loads
its constituents; without a meta grid every missing tile is created
individually, fetching once per tile. -/
theorem C5_meta_tile_batching {β : Type} [DecidableEq β] (env : TMEnv β)
    (tiles : List Coord) (st : TMTrace β)
    (hok : ∀ q, ∃ i, env.sourceGet q = Except.ok i)
    (hne : ∀ p ∈ TileManager.bucket_meta env tiles [] [],
        env.meta_tiles p.1 ≠ [])
    (hmain : ∀ p ∈ TileManager.bucket_meta env tiles [] [],
        env.metaMain p.1 ∉ st.cache)
    (hdisj : List.Pairwise (fun p q =>
        env.metaMain p.1 ∉ (env.meta_tiles q.1).map Prod.fst ∧
        env.metaMain q.1 ∉ (env.meta_tiles p.1).map Prod.fst)
        (TileManager.bucket_meta env tiles [] []))
    (hnodup : tiles.Nodup) (hfresh : ∀ c ∈ tiles, c ∉ st.cache) :
    List.Pairwise (fun p q => p.2 ≠ q.2)
        (TileManager.bucket_meta env tiles [] []) ∧
    (∀ c ∈ tiles, ∃ p ∈ TileManager.bucket_meta env tiles [] [],
        p.2 = env.meta_bbox c) ∧
    (∀ p ∈ TileManager.bucket_meta env tiles [] [],
        p.1 ∈ tiles ∧ p.2 = env.meta_bbox p.1) ∧
    TileManager.create_tiles_run env true tiles st
      = (Except.ok
           (((TileManager.bucket_meta env tiles [] []).map
              (fun p => (env.meta_tiles p.1).map Prod.fst)).flatten),
         { st with
             cache := st.cache
               ++ (((TileManager.bucket_meta env tiles [] []).map
                    (fun p => (env.meta_tiles p.1).map Prod.fst)).flatten),
             fetches := st.fetches
               ++ (TileManager.bucket_meta env tiles [] []).map
                    (fun p => env.metaQuery p.2 (env.metaMain p.1).2.2),
             stored := st.stored
               ++ (((TileManager.bucket_meta env tiles [] []).map
                    (fun p => (env.meta_tiles p.1).map Prod.fst)).flatten),
             locked := st.locked
               ++ (TileManager.bucket_meta env tiles [] []).map
                    (fun p => env.metaMain p.1),
             released := st.released
               ++ (TileManager.bucket_meta env tiles [] []).map
                    (fun p => env.metaMain p.1) }) ∧
    (∀ (mainC : Coord) (mbbox : β) (mtiles : List (Coord × (Nat × Nat))),
      mainC ∈ st.cache →
      TileManager.create_meta_tile env st mainC mbbox mtiles
        = (Except.ok (mtiles.map Prod.fst),
           { st with locked := st.locked ++ [mainC],
                     released := st.released ++ [mainC] })) ∧
    TileManager.create_tiles_run env false tiles st
      = (Except.ok tiles,
         { st with cache := st.cache ++ tiles,
                   fetches := st.fetches ++ tiles.map env.tileQuery,
                   stored := st.stored ++ tiles,
                   locked := st.locked ++ tiles,
                   released := st.released ++ tiles }) := by
  obtain ⟨hpw, hcov, hsub⟩ :=
    bucket_meta_spec env tiles [] [] (by simp) (by simp)
  refine ⟨hpw, hcov, ?_, ?_, ?_, ?_⟩
  · intro p hp
    rcases hsub p hp with h1 | h1
    · simp at h1
    · exact h1
  · show TileManager.create_meta_tiles env
        (TileManager.bucket_meta env tiles [] []) st = _
    exact create_meta_tiles_run env _ st hok hne hmain hdisj
  · intro mainC mbbox mtiles hcached
    simp [TileManager.create_meta_tile, hcached]
  · show TileManager.create_each env tiles st = _
    exact create_each_run env tiles st hok hfresh hnodup

/-- Claim C5, witness: the theorem applied to three missing tiles on the
concrete 2×1 meta-grid fixture (tiles `(0,0,1)` and `(1,0,1)` share a meta
bbox, `(2,0,1)` has its own), all hypotheses discharged concretely; the
bucket list covers the meta bbox of tile `(1,0,1)`. -/
theorem C5_meta_tile_batching_witness :
    ∃ p ∈ TileManager.bucket_meta metaEnvFixture
        [(0, 0, 1), (1, 0, 1), (2, 0, 1)] [] [],
      p.2 = metaEnvFixture.meta_bbox (1, 0, 1) :=
  (C5_meta_tile_batching metaEnvFixture [(0, 0, 1), (1, 0, 1), (2, 0, 1)]
      ⟨[], [], [], [], []⟩ (fun _ => ⟨5, rfl⟩) (by decide) (by decide)
      (by decide) (by decide) (by decide)).2.1 (1, 0, 1) (by decide)

end MapProxy
